import Mathlib

/-!
Shallow embedding of the yt-mcp analysis pipeline.

The definitions below are translated from the repository source:
  * `src/models/schemas.py`   — the pydantic data model,
  * `src/pipeline/evaluators.py` — `_select_best_questions` (the question
    ranker) and `_calculate_impact_scores`,
  * `src/pipeline/extractors.py` — `extract_video_id` and `fetch_transcript`,
  * `src/pipeline/chain.py`   — the `ChainProcessor` orchestration.

Modelling conventions:
  * Python `float` arithmetic is modelled with exact rationals (`ℚ`); every
    score the ranker computes is of the form `(10 - r) * 10 + 50 / c`.
  * Python exceptions are modelled by the inductive `PyExc`; a value-level
    `raise` becomes `Except.error`.  External I/O calls (YouTube API, the two
    LLM backends) are oracles supplied as function-valued parameters; each
    oracle either returns a value or a raised exception's message string.
  * `pandas.DataFrame.sort_values(..., ascending=False)` guarantees only a
    descending permutation (its default `kind='quicksort'` is not stable);
    the model fixes one concrete such permutation via `List.insertionSort`
    with the `≥`-on-score relation, and no theorem depends on the order of
    equal-score rows; the frame's integer index is carried in each row.
  * Wall-clock step timings are not modelled; every recorded
    `ProcessingStep.processing_time` is `0`.
-/

/-- Model of the Python exceptions that can cross a stage boundary in the
pipeline (`src/utils/errors.py` plus the builtins the source raises). -/
inductive PyExc where
  | valueError (msg : String)
  | validationError (msg : String)
  | apiError (msg : String) (api_name : String)
  | attributeError
  | pydanticError
  | pipelineError (msg : String)
  | other (msg : String)
deriving DecidableEq, Repr

/-- Python `str(e)` on a modelled exception. -/
def PyExc.msg : PyExc → String
  | .valueError m => m
  | .validationError m => m
  | .apiError m _ => m
  | .attributeError => "AttributeError"
  | .pydanticError => "ValidationError"
  | .pipelineError m => m
  | .other m => m

/-- Python `str.split()` with no argument: split on whitespace runs,
dropping empty fragments. -/
def pySplitWs (s : String) : List String :=
  (s.split Char.isWhitespace).filter (fun t => ¬ (t = ""))

/-- Python `len(s.split())`, the word count used throughout the source. -/
def pyWordCount (s : String) : Nat :=
  (pySplitWs s).length

/-- Truthiness of an `Optional[str]` field: `None` and `""` are falsy. -/
def pyTruthy : Option String → Bool
  | none => false
  | some s => ¬ (s = "")

/-- Python `x or ""` on an `Optional[str]`. -/
def pyOrEmpty : Option String → String
  | none => ""
  | some s => s

/-- Python `f"{b}"` on a bool. -/
def pyBool (b : Bool) : String :=
  if b then "True" else "False"

/-- Python list slicing `l[:n]` for an `int` bound `n` (negative bounds count
from the end, clipping at zero). -/
def pySliceTo {α : Type} (n : Int) (l : List α) : List α :=
  if 0 ≤ n then l.take n.toNat else l.take (l.length - n.natAbs)

/-- Replacement loop of Python `str.replace`, over character lists: scan left
to right, replacing non-overlapping occurrences and skipping past each
replacement.  The fuel argument (instantiated with the list length) only
makes the recursion structural; one character is consumed per step, so the
fuel never runs out. -/
def listReplaceAux (pat rep : List Char) : Nat → List Char → List Char
  | 0, cs => cs
  | fuel + 1, cs =>
    match cs with
    | [] => []
    | c :: rest =>
      if pat ≠ [] ∧ cs.take pat.length = pat then
        rep ++ listReplaceAux pat rep fuel (cs.drop pat.length)
      else c :: listReplaceAux pat rep fuel rest

/-- Python `s.replace(pat, rep)` (for the non-empty patterns the source
uses). -/
def pyReplace (s pat rep : String) : String :=
  String.mk (listReplaceAux pat.data rep.data s.data.length s.data)

/-- Splitting loop of Python `str.split(sep)` over character lists, with the
same structural-fuel scheme as `listReplaceAux`. -/
def listSplitAux (sep : List Char) : Nat → List Char → List Char → List (List Char)
  | 0, acc, cs => [acc.reverse ++ cs]
  | fuel + 1, acc, cs =>
    match cs with
    | [] => [acc.reverse]
    | c :: rest =>
      if sep ≠ [] ∧ cs.take sep.length = sep then
        acc.reverse :: listSplitAux sep fuel [] (cs.drop sep.length)
      else listSplitAux sep fuel (c :: acc) rest

/-- Python `s.split(sep)` for a non-empty separator. -/
def pySplitOnStr (s sep : String) : List String :=
  if sep = "" then [s]
  else (listSplitAux sep.data s.data.length [] s.data).map String.mk

/-- Python substring test `pat in s` (for a non-empty pattern). -/
def pyContainsSub (s pat : String) : Bool :=
  (pySplitOnStr s pat).length ≠ 1

/-! ## Data model (`src/models/schemas.py`)

`datetime` fields are modelled as opaque strings; no pipeline logic reads
them. -/

structure VideoMetadata where
  video_id : String
  title : String
  author : String
  channel_title : String
  published_date : String
  url : String
deriving DecidableEq, Repr

structure Comment where
  comment : String
  user_name : String
  date : String
  like_count : Int
  replies : List String := []
deriving DecidableEq, Repr

structure CommentsData where
  comments : List Comment
  total_count : Int
  processed_count : Int
  total_word_count : Int
deriving DecidableEq, Repr

structure TranscriptData where
  text : Option String
  word_count : Nat
  available : Bool
  language : Option String := none
  error_message : Option String := none
deriving DecidableEq, Repr

structure ProcessingStep where
  step_name : String
  input_data : String
  output_data : String
  processing_time : ℚ
  success : Bool
  error_message : Option String := none
deriving DecidableEq, Repr

structure CriticalThinkingStandard where
  name : String
  evaluation : String
  rating : Int
  followup_questions : List String
deriving DecidableEq, Repr

/-- The `impact_scores` dict is modelled as an association list in insertion
order (`_calculate_impact_scores` assigns each standard's name once per
standard). -/
structure CriticalThinkingAssessment where
  standards : List CriticalThinkingStandard
  selected_questions : List String
  impact_scores : List (String × ℚ)
deriving DecidableEq, Repr

structure PipelineConfig where
  max_comments : Int := 5000
  max_total_word_length : Int := 80000
  openai_model : String := "gpt-5"
  openai_temperature : ℚ := 35/100
  gemini_model : String := "gemini-1.5-flash"
  gemini_temperature : ℚ := 1/2
  num_selected_questions : Int := 6
  enable_transcript : Bool := true
  enable_comments : Bool := true
  enable_transcript_processing : Bool := true
  enable_comments_processing : Bool := true
  enable_synthesis : Bool := true
  enable_evaluation : Bool := true
  enable_audio_download : Bool := false
deriving DecidableEq, Repr

structure ProcessingContext where
  video_metadata : VideoMetadata
  transcript : Option TranscriptData := none
  comments : Option CommentsData := none
  transcript_summary : Option String := none
  comments_summary : Option String := none
  compressed_summary : Option String := none
  critical_assessment : Option CriticalThinkingAssessment := none
  processing_steps : List ProcessingStep := []
  config : PipelineConfig
deriving DecidableEq, Repr

structure AnalysisResult where
  video_metadata : VideoMetadata
  transcript : Option TranscriptData
  comments : CommentsData
  processing_steps : List ProcessingStep
  transcript_summary : Option String := none
  comments_summary : Option String := none
  compressed_summary : Option String := none
  critical_assessment : CriticalThinkingAssessment
  total_processing_time : ℚ
deriving DecidableEq, Repr

/-! ## Question ranker (`src/pipeline/evaluators.py`, `_select_best_questions`)

One `Row` is one row of the `questions_data` DataFrame; `idx` is the frame's
integer index (`pandas` assigns `0, 1, 2, …` in construction order and
`sort_values` permutes rows without relabelling them). -/

structure Row where
  idx : Nat
  standard_name : String
  question : String
  rating : Int
  impact_score : ℚ
deriving DecidableEq, Repr

/-- The `questions_data` list built by the nested loop: one entry per
`(standard, question)` pair in encounter order, with the base impact score
`(10 - rating) * 10`. -/
def flattenQuestions (standards : List CriticalThinkingStandard) :
    List (String × String × Int) :=
  standards.flatMap (fun s => s.followup_questions.map (fun q => (s.name, q, s.rating)))

/-- The DataFrame rows: `questions_data` enumerated with the frame index. -/
def dfRows (standards : List CriticalThinkingStandard) : List Row :=
  (flattenQuestions standards).enum.map
    (fun p => ⟨p.1, p.2.1, p.2.2.1, p.2.2.2, ((10 : ℚ) - p.2.2.2) * 10⟩)

/-- Occurrences of a category name among the rows
(`df["standard_name"].value_counts()[category]`). -/
def categoryCount (rows : List Row) (category : String) : Nat :=
  (rows.filter (fun r => r.standard_name = category)).length

/-- The diversity-bonus loop: every row of category `c` gains
`50 / value_counts[c]` on its impact score (each row is updated exactly once,
when the loop reaches its category). -/
def applyBonus (rows : List Row) : List Row :=
  rows.map (fun r =>
    { r with impact_score := r.impact_score + 50 / (categoryCount rows r.standard_name : ℚ) })

/-- Descending-by-score row order; ties are allowed in both directions. -/
def rowGE (a b : Row) : Prop := b.impact_score ≤ a.impact_score

instance : DecidableRel rowGE := fun a b =>
  inferInstanceAs (Decidable (b.impact_score ≤ a.impact_score))

instance : IsTotal Row rowGE := ⟨fun a b => le_total b.impact_score a.impact_score⟩

instance : IsTrans Row rowGE := ⟨fun _ _ _ h1 h2 => le_trans h2 h1⟩

/-- Model of `df.sort_values("impact_score", ascending=False)`.  The source
delegates the sort to `numpy.argsort` with pandas' default `kind='quicksort'`,
which guarantees a descending permutation but leaves the relative order of
equal-score rows unspecified (the default kind is documented as not stable).
The model must fix one concrete order, and uses a stable descending insertion
sort; no theorem below about the repository relies on this tie order — the
proved properties of the selection passes depend only on the output being a
score-sorted permutation of the rows. -/
def sortRowsDesc (rows : List Row) : List Row :=
  rows.insertionSort rowGE

/-- First selection pass: scanning the sorted rows in order, append the
question of every row whose category is not yet covered, while
`len(selected) < num_questions`.  Returns the selection together with the
covered-category set (modelled as a list). -/
def pass1 (num_questions : Int) :
    List Row → List String → List String → List String × List String
  | [], selected, covered => (selected, covered)
  | r :: rs, selected, covered =>
    if r.standard_name ∉ covered ∧ (selected.length : Int) < num_questions then
      pass1 num_questions rs (selected ++ [r.question]) (covered ++ [r.standard_name])
    else
      pass1 num_questions rs selected covered

/-- Second selection pass: scanning the sorted rows again, append every
question not already selected, while `len(selected) < num_questions`. -/
def pass2 (num_questions : Int) : List Row → List String → List String
  | [], selected => selected
  | r :: rs, selected =>
    if r.question ∉ selected ∧ (selected.length : Int) < num_questions then
      pass2 num_questions rs (selected ++ [r.question])
    else
      pass2 num_questions rs selected

/-- The sorted DataFrame inside `_select_best_questions`. -/
def rankedRows (standards : List CriticalThinkingStandard) : List Row :=
  sortRowsDesc (applyBonus (dfRows standards))

/-- `CriticalThinkingEvaluator._select_best_questions`. -/
def select_best_questions (standards : List CriticalThinkingStandard)
    (num_questions : Int) : List String :=
  if dfRows standards = [] then []
  else
    let sorted := rankedRows standards
    let firstPass := pass1 num_questions sorted [] []
    pySliceTo num_questions (pass2 num_questions sorted firstPass.1)

/-- `CriticalThinkingEvaluator._calculate_impact_scores`. -/
def calculate_impact_scores (standards : List CriticalThinkingStandard) :
    List (String × ℚ) :=
  standards.map (fun s => (s.name, ((10 : ℚ) - s.rating) * 10))

/-! ## Video identifier resolution (`src/pipeline/extractors.py`,
`YouTubeExtractor.extract_video_id`)

The three regular expressions are embedded with `re.search` semantics:
leftmost match over the character list, alternatives tried in order at each
position, `{11}` exact repetition of the character class `[0-9A-Za-z_-]`,
and a greedy `.*` (which never crosses a newline) inside pattern 3.  The
`urlparse`/`parse_qs` fallback is embedded structurally (fragment after the
first `#`, query after the first `?`, pairs split on `&` and on the first
`=`, blank values dropped); percent- and plus-decoding of query strings are
not modelled. -/

/-- Character class `[0-9A-Za-z_-]` of the video-id patterns. -/
def isVidChar (c : Char) : Bool :=
  c.isAlphanum ∨ c = '_' ∨ c = '-'

/-- Consume exactly 11 video-id characters (`{11}`), if present. -/
def takeVid (cs : List Char) : Option (List Char) :=
  let pre := cs.take 11
  if pre.length = 11 ∧ pre.all isVidChar then some pre else none

/-- Pattern 1 `(?:v=|/)([0-9A-Za-z_-]{11}).*` anchored at the given
position. -/
def p1At : List Char → Option (List Char)
  | 'v' :: '=' :: rest => takeVid rest
  | '/' :: rest => takeVid rest
  | _ => none

/-- Pattern 2 `(?:embed/)([0-9A-Za-z_-]{11}).*` anchored at the given
position. -/
def p2At (cs : List Char) : Option (List Char) :=
  if cs.take 6 = "embed/".data then takeVid (cs.drop 6) else none

/-- Candidate groups for `.*v=([0-9A-Za-z_-]{11})`, scanning left to right
and stopping at a newline (`.` does not match `\n`). -/
def scanVeq : List Char → List (List Char)
  | [] => []
  | 'v' :: '=' :: r =>
    (match takeVid r with | some g => [g] | none => []) ++ scanVeq ('=' :: r)
  | c :: rest => if c = '\n' then [] else scanVeq rest

/-- Pattern 3 `(?:watch\?.*v=)([0-9A-Za-z_-]{11}).*` anchored at the given
position; the greedy `.*` selects the last feasible `v=`. -/
def p3At (cs : List Char) : Option (List Char) :=
  if cs.take 6 = "watch?".data then (scanVeq (cs.drop 6)).getLast? else none

/-- Leftmost-position search (`re.search`). -/
def reSearchAt (pAt : List Char → Option (List Char)) :
    List Char → Option (List Char)
  | [] => pAt []
  | c :: rest =>
    match pAt (c :: rest) with
    | some g => some g
    | none => reSearchAt pAt rest

/-- Query string of `urlparse`: the part after the first `?`, with the
fragment (after the first `#`) removed first. -/
def pyUrlQuery (s : String) : String :=
  let beforeFrag := (pySplitOnStr s "#").headD s
  match pySplitOnStr beforeFrag "?" with
  | [] => ""
  | [_] => ""
  | _ :: rest => String.intercalate "?" rest

/-- First value of the `v` key in `parse_qs(urlparse(url).query)`. -/
def parseQsV (clean_url : String) : Option String :=
  let pairs := pySplitOnStr (pyUrlQuery clean_url) "&"
  (pairs.filterMap (fun chunk =>
    match pySplitOnStr chunk "=" with
    | [] => none
    | [_] => none
    | k :: rest =>
      let v := String.intercalate "=" rest
      if k = "v" ∧ v ≠ "" then some v else none)).head?

/-- `YouTubeExtractor.extract_video_id`: the only raise in its body is the
builtin `ValueError` on line 56 of `src/pipeline/extractors.py`. -/
def extract_video_id (video_url : String) : Except PyExc String :=
  let clean_url := pyReplace (pyReplace (pyReplace video_url "\\?" "?") "\\&" "&") "\\=" "="
  let cs := clean_url.data
  match reSearchAt p1At cs with
  | some g => .ok (String.mk g)
  | none =>
  match reSearchAt p2At cs with
  | some g => .ok (String.mk g)
  | none =>
  match reSearchAt p3At cs with
  | some g => .ok (String.mk g)
  | none =>
  match parseQsV clean_url with
  | some v => .ok v
  | none => .error (.valueError ("Could not extract video ID from URL: " ++ video_url))

/-! ## Transcript fetch (`src/pipeline/extractors.py`,
`YouTubeExtractor.fetch_transcript`)

The three external fetch mechanisms are oracles: `ytdlp` is the outcome of
`_extract_transcript_with_ytdlp` (a transcript string, or a raised
exception's message), `api` is the outcome of
`YouTubeTranscriptApi.get_transcript` (the segment texts, or
`TranscriptsDisabled`, or another exception), and `alt` is the outcome of
the alternative-language retry. -/

/-- Outcome of `YouTubeTranscriptApi.get_transcript`. -/
inductive TApiErr where
  | transcriptsDisabled
  | other (msg : String)
deriving DecidableEq, Repr

/-- Python `" ".join(item["text"] for item in transcript_data)`. -/
def joinSegs (segs : List String) : String :=
  String.intercalate " " segs

/-- A successfully extracted transcript with its source-language tag. -/
def availableTranscript (t : String) (lang : String) : TranscriptData :=
  { text := some t, word_count := pyWordCount t, available := true, language := some lang }

/-- The final unavailable result of `fetch_transcript` when every method
failed. -/
def allMethodsFailed (msg : String) : TranscriptData :=
  { text := none, word_count := 0, available := false,
    error_message := some ("All transcript extraction methods failed. YT-DLP: failed, YouTube-API: " ++ msg) }

/-- The `youtube-transcript-api` fallback path of `fetch_transcript`
(methods 2 and 3). -/
def fetchTranscriptFallback (api : Except TApiErr (List String))
    (alt : Except String (List String)) : TranscriptData :=
  match api with
  | .ok segs => availableTranscript (joinSegs segs) "youtube-api"
  | .error .transcriptsDisabled =>
    { text := none, word_count := 0, available := false,
      error_message := some "Transcripts are disabled for this video" }
  | .error (.other msg) =>
    if pyContainsSub msg "No transcripts were found" then
      match alt with
      | .ok segs => availableTranscript (joinSegs segs) "alternative"
      | .error _ => allMethodsFailed msg
    else allMethodsFailed msg

/-- `YouTubeExtractor.fetch_transcript` over the three fetch oracles. -/
def fetch_transcript (ytdlp : Except String String)
    (api : Except TApiErr (List String))
    (alt : Except String (List String)) : TranscriptData :=
  match ytdlp with
  | .ok t => if t ≠ "" then availableTranscript t "yt-dlp" else fetchTranscriptFallback api alt
  | .error _ => fetchTranscriptFallback api alt

/-! ## Chain orchestration (`src/pipeline/chain.py`, `ChainProcessor`)

The external collaborators of the chain are modelled as a record of oracles;
each oracle call either returns a value or the message string of a raised
exception (the retry decorators of the collaborators are absorbed into the
oracle: its outcome is the post-retry outcome).  A stage that re-raises is
modelled by `Except.error` carrying the exception together with the context
as mutated up to the raise (the caller discards that context). -/

structure Backends where
  fetch_video_metadata : String → Except String VideoMetadata
  fetch_transcript : String → Except String TranscriptData
  fetch_comments : String → Int → Int → Except String CommentsData
  generate_transcript_summary :
    TranscriptData → String → PipelineConfig → Except String (List String)
  generate_comments_summary :
    CommentsData → PipelineConfig → Except String (List String)
  compress_content : String → String → PipelineConfig → Except String String
  evaluate_standards :
    String → String → PipelineConfig → Except String (List CriticalThinkingStandard)

/-- A successful `ProcessingStep` record (wall-clock duration not
modelled). -/
def okStep (name input output : String) : ProcessingStep :=
  { step_name := name, input_data := input, output_data := output,
    processing_time := 0, success := true }

/-- A failed `ProcessingStep` record. -/
def failStep (name input err : String) : ProcessingStep :=
  { step_name := name, input_data := input, output_data := "",
    processing_time := 0, success := false, error_message := some err }

/-- The substitute transcript of `chain.py` line 156. -/
def unavailableTranscript : TranscriptData :=
  { text := none, word_count := 0, available := false }

/-- The empty comments object of `chain.py` lines 195 and 202. -/
def emptyCommentsData : CommentsData :=
  { comments := [], total_count := 0, processed_count := 0, total_word_count := 0 }

/-- Transcript half of `_step_1_extract_data`. -/
def step1Transcript (B : Backends) (ctx : ProcessingContext) : ProcessingContext :=
  if ctx.config.enable_transcript then
    match B.fetch_transcript ctx.video_metadata.video_id with
    | .ok t =>
      { ctx with
        transcript := some t,
        processing_steps := ctx.processing_steps ++
          [okStep "extract_transcript" ctx.video_metadata.video_id
            ("Transcript available: " ++ pyBool t.available ++ ", Words: " ++ toString t.word_count)] }
    | .error e =>
      { ctx with
        processing_steps := ctx.processing_steps ++
          [failStep "extract_transcript" ctx.video_metadata.video_id e],
        transcript := some unavailableTranscript }
  else ctx

/-- Comments half of `_step_1_extract_data`. -/
def step1Comments (B : Backends) (ctx : ProcessingContext) : ProcessingContext :=
  if ctx.config.enable_comments then
    match B.fetch_comments ctx.video_metadata.video_id
        ctx.config.max_comments ctx.config.max_total_word_length with
    | .ok c =>
      { ctx with
        comments := some c,
        processing_steps := ctx.processing_steps ++
          [okStep "extract_comments" ctx.video_metadata.video_id
            ("Comments: " ++ toString c.total_count ++ ", Words: " ++ toString c.total_word_count)] }
    | .error e =>
      { ctx with
        processing_steps := ctx.processing_steps ++
          [failStep "extract_comments" ctx.video_metadata.video_id e],
        comments := some emptyCommentsData }
  else
    { ctx with comments := some emptyCommentsData }

/-- `ChainProcessor._step_1_extract_data`: every failure of either fetch is
caught inside the stage, so the stage itself never raises. -/
def step_1_extract_data (B : Backends) (ctx : ProcessingContext) : ProcessingContext :=
  step1Comments B (step1Transcript B ctx)

/-- Transcript half of `_step_2_process_content`. -/
def step2Transcript (B : Backends) (ctx : ProcessingContext) (instruction : String) :
    ProcessingContext :=
  if ctx.config.enable_transcript_processing then
    match ctx.transcript with
    | none => ctx
    | some t =>
      if t.available then
        match B.generate_transcript_summary t instruction ctx.config with
        | .ok chunks =>
          let summary := String.join chunks
          { ctx with
            transcript_summary := some summary,
            processing_steps := ctx.processing_steps ++
              [okStep "process_transcript"
                ("Transcript (" ++ toString t.word_count ++ " words)")
                ("Summary (" ++ toString (pyWordCount summary) ++ " words)")] }
        | .error e =>
          { ctx with processing_steps := ctx.processing_steps ++
              [failStep "process_transcript"
                ("Transcript (" ++ toString t.word_count ++ " words)") e] }
      else ctx
  else ctx

/-- Comments half of `_step_2_process_content`. -/
def step2Comments (B : Backends) (ctx : ProcessingContext) : ProcessingContext :=
  if ctx.config.enable_comments_processing then
    match ctx.comments with
    | none => ctx
    | some c =>
      if 0 < c.total_count then
        match B.generate_comments_summary c ctx.config with
        | .ok chunks =>
          let summary := String.join chunks
          { ctx with
            comments_summary := some summary,
            processing_steps := ctx.processing_steps ++
              [okStep "process_comments"
                ("Comments (" ++ toString c.total_count ++ " items)")
                ("Summary (" ++ toString (pyWordCount summary) ++ " words)")] }
        | .error e =>
          { ctx with
            comments_summary := some "",
            processing_steps := ctx.processing_steps ++
              [failStep "process_comments"
                ("Comments (" ++ toString c.total_count ++ " items)") e] }
      else ctx
  else ctx

/-- `ChainProcessor._step_2_process_content`: both halves catch their own
failures, so the stage never raises. -/
def step_2_process_content (B : Backends) (ctx : ProcessingContext)
    (instruction : String) : ProcessingContext :=
  step2Comments B (step2Transcript B ctx instruction)

/-- `ContentSynthesizer.compress_content` as seen by the chain: a backend
failure surfaces as `APIError("Content compression failed: …", "google_genai")`
(`src/pipeline/synthesizers.py`). -/
def compressContent (B : Backends) (a b : String) (config : PipelineConfig) :
    Except PyExc String :=
  (B.compress_content a b config).mapError
    (fun m => .apiError ("Content compression failed: " ++ m) "google_genai")

/-- The synthesis-disabled fallback of `_step_3_synthesize_content`
(lines 297–305): best available summary by Python truthiness, else the fixed
message. -/
def bestAvailableSummary (ctx : ProcessingContext) : String :=
  if pyTruthy ctx.comments_summary then pyOrEmpty ctx.comments_summary
  else if pyTruthy ctx.transcript_summary then pyOrEmpty ctx.transcript_summary
  else "Analysis completed without content synthesis."

/-- `ChainProcessor._step_3_synthesize_content`: a backend failure is
recorded and then re-raised (fatal). -/
def step_3_synthesize_content (B : Backends) (ctx : ProcessingContext) :
    Except (PyExc × ProcessingContext) ProcessingContext :=
  if ¬ ctx.config.enable_synthesis then
    .ok { ctx with compressed_summary := some (bestAvailableSummary ctx) }
  else
    match compressContent B (pyOrEmpty ctx.transcript_summary)
        (pyOrEmpty ctx.comments_summary) ctx.config with
    | .ok s =>
      .ok { ctx with
        compressed_summary := some s,
        processing_steps := ctx.processing_steps ++
          [okStep "synthesize_content" "Transcript + Comments summaries"
            ("Compressed summary (" ++ toString (pyWordCount s) ++ " words)")] }
    | .error e =>
      .error (e, { ctx with processing_steps := ctx.processing_steps ++
        [failStep "synthesize_content" "Transcript + Comments summaries" e.msg] })

/-- `CriticalThinkingEvaluator.evaluate_content` as seen by the chain: the
structured LLM call is the oracle; on success the ranker and the impact
scores populate the assessment, on failure the evaluator raises
`APIError("Critical thinking evaluation failed: …", "google_genai")`. -/
def evaluateContent (B : Backends) (ts cs : String) (config : PipelineConfig) :
    Except PyExc CriticalThinkingAssessment :=
  match B.evaluate_standards ts cs config with
  | .ok standards =>
    .ok { standards := standards,
          selected_questions := select_best_questions standards config.num_selected_questions,
          impact_scores := calculate_impact_scores standards }
  | .error m =>
    .error (.apiError ("Critical thinking evaluation failed: " ++ m) "google_genai")

/-- The empty assessment substituted when evaluation is disabled
(`chain.py` lines 346–348). -/
def emptyAssessment : CriticalThinkingAssessment :=
  { standards := [], selected_questions := [], impact_scores := [] }

/-- `ChainProcessor._step_4_evaluate_content`: a backend failure is recorded
and then re-raised (fatal). -/
def step_4_evaluate_content (B : Backends) (ctx : ProcessingContext) :
    Except (PyExc × ProcessingContext) ProcessingContext :=
  if ¬ ctx.config.enable_evaluation then
    .ok { ctx with critical_assessment := some emptyAssessment }
  else
    match evaluateContent B (pyOrEmpty ctx.transcript_summary)
        (pyOrEmpty ctx.comments_summary) ctx.config with
    | .ok a =>
      .ok { ctx with
        critical_assessment := some a,
        processing_steps := ctx.processing_steps ++
          [okStep "evaluate_critical_thinking" "Transcript + Comments summaries"
            ("Assessment with " ++ toString a.standards.length ++ " standards, "
              ++ toString a.selected_questions.length ++ " priority questions")] }
    | .error e =>
      .error (e, { ctx with processing_steps := ctx.processing_steps ++
        [failStep "evaluate_critical_thinking" "Transcript + Comments summaries" e.msg] })

/-- Final assembly into `AnalysisResult`: pydantic rejects a missing
`comments` or `critical_assessment` (both fields are required and
non-optional in the schema). -/
def mkAnalysisResult (ctx : ProcessingContext) : Except PyExc AnalysisResult :=
  match ctx.comments, ctx.critical_assessment with
  | some comments, some assessment =>
    .ok { video_metadata := ctx.video_metadata, transcript := ctx.transcript,
          comments := comments, processing_steps := ctx.processing_steps,
          transcript_summary := ctx.transcript_summary,
          comments_summary := ctx.comments_summary,
          compressed_summary := ctx.compressed_summary,
          critical_assessment := assessment, total_processing_time := 0 }
  | _, _ => .error .pydanticError

/-- Body of the `try` block of `ChainProcessor.analyze_video`. -/
def analyzeVideoInner (B : Backends) (video_url : String)
    (config : PipelineConfig) (instruction : String) : Except PyExc AnalysisResult :=
  match extract_video_id video_url with
  | .error e => .error e
  | .ok video_id =>
    match B.fetch_video_metadata video_id with
    | .error m => .error (.other m)
    | .ok metadata =>
      match step_3_synthesize_content B (step_2_process_content B
          (step_1_extract_data B { video_metadata := metadata, config := config })
          instruction) with
      | .error e => .error e.1
      | .ok ctx3 =>
        match step_4_evaluate_content B ctx3 with
        | .error e => .error e.1
        | .ok ctx4 => mkAnalysisResult ctx4

/-- Default instruction constant (`PromptTemplates.SUMMARIZE_FOR_REFLECTION`;
the exact prompt wording is irrelevant to the orchestration). -/
def summarizeForReflection : String := "SUMMARIZE_FOR_REFLECTION"

/-- `ChainProcessor.analyze_video`: any exception escaping the `try` block is
wrapped in `PipelineError` and no result is returned. -/
def analyze_video (B : Backends) (video_url : String)
    (config : Option PipelineConfig) (instruction : Option String) :
    Except PyExc AnalysisResult :=
  let config := config.getD {}
  let instruction := instruction.getD summarizeForReflection
  match analyzeVideoInner B video_url config instruction with
  | .ok r => .ok r
  | .error e => .error (.pipelineError ("Analysis pipeline failed: " ++ e.msg))

/-! ## Lemmas about the question ranker -/

/-- Every DataFrame row carries the base score of its rating and stems from a
standard's follow-up list. -/
theorem mem_dfRows_spec {standards : List CriticalThinkingStandard} {r : Row}
    (h : r ∈ dfRows standards) :
    r.impact_score = ((10 : ℚ) - r.rating) * 10 ∧
      ∃ s ∈ standards, s.name = r.standard_name ∧ s.rating = r.rating ∧
        r.question ∈ s.followup_questions := by
  simp only [dfRows, List.mem_map] at h
  obtain ⟨p, hp, rfl⟩ := h
  have hget := List.mem_enum_iff_getElem?.1 hp
  obtain ⟨hlt, hEq2⟩ := List.getElem?_eq_some_iff.mp hget
  have hmem : p.2 ∈ flattenQuestions standards := by
    rw [← hEq2]
    exact List.getElem_mem hlt
  simp only [flattenQuestions, List.mem_flatMap, List.mem_map] at hmem
  obtain ⟨s, hs, q, hq, hEq⟩ := hmem
  refine ⟨rfl, s, hs, ?_⟩
  simp only [← hEq]
  exact ⟨trivial, trivial, hq⟩

/-- Membership in `applyBonus`, unpacked. -/
theorem mem_applyBonus {rows : List Row} {r : Row} :
    r ∈ applyBonus rows ↔ ∃ r0 ∈ rows,
      r = { r0 with impact_score :=
        r0.impact_score + 50 / (categoryCount rows r0.standard_name : ℚ) } := by
  simp [applyBonus, List.mem_map, eq_comm]

/-- The bonus map does not change the question column. -/
theorem applyBonus_map_question (rows : List Row) :
    (applyBonus rows).map (fun r => r.question) = rows.map (fun r => r.question) := by
  simp only [applyBonus, List.map_map]
  rfl

/-- The bonus map does not change the category column. -/
theorem applyBonus_map_name (rows : List Row) :
    (applyBonus rows).map (fun r => r.standard_name) = rows.map (fun r => r.standard_name) := by
  simp only [applyBonus, List.map_map]
  rfl

/-- Every bonus-adjusted row's final score is the closed form
`(10 - rating) * 10 + 50 / count`. -/
theorem mem_applyBonus_score {standards : List CriticalThinkingStandard} {r : Row}
    (h : r ∈ applyBonus (dfRows standards)) :
    r.impact_score = ((10 : ℚ) - r.rating) * 10 +
      50 / (categoryCount (dfRows standards) r.standard_name : ℚ) := by
  obtain ⟨r0, hr0, rfl⟩ := mem_applyBonus.mp h
  have hbase := (mem_dfRows_spec hr0).1
  simp [hbase]

/-- The sorted frame is a permutation of the bonus-adjusted frame. -/
theorem rankedRows_perm (standards : List CriticalThinkingStandard) :
    List.Perm (rankedRows standards) (applyBonus (dfRows standards)) :=
  List.perm_insertionSort rowGE (applyBonus (dfRows standards))

/-- A sorted row corresponds to an original frame row with the same
category and question. -/
theorem mem_rankedRows_orig {standards : List CriticalThinkingStandard} {r : Row}
    (h : r ∈ rankedRows standards) :
    ∃ r0 ∈ dfRows standards,
      r0.standard_name = r.standard_name ∧ r0.question = r.question := by
  have h2 : r ∈ applyBonus (dfRows standards) := (rankedRows_perm standards).mem_iff.mp h
  obtain ⟨r0, hr0, rfl⟩ := mem_applyBonus.mp h2
  exact ⟨r0, hr0, rfl, rfl⟩

/-! Lemmas about the two selection passes. -/

/-- The first pass only appends to the running selection. -/
theorem pass1_sel_grows (n : Int) :
    ∀ (rs : List Row) (sel cov : List String),
      ∃ extra, (pass1 n rs sel cov).1 = sel ++ extra
  | [], sel, cov => ⟨[], by simp [pass1]⟩
  | r :: rs, sel, cov => by
    simp only [pass1]
    split
    · obtain ⟨e, he⟩ := pass1_sel_grows n rs (sel ++ [r.question]) (cov ++ [r.standard_name])
      exact ⟨r.question :: e, by simp [he]⟩
    · exact pass1_sel_grows n rs sel cov

/-- The first pass only appends to the covered-category list. -/
theorem pass1_cov_grows (n : Int) :
    ∀ (rs : List Row) (sel cov : List String),
      ∃ extra, (pass1 n rs sel cov).2 = cov ++ extra
  | [], sel, cov => ⟨[], by simp [pass1]⟩
  | r :: rs, sel, cov => by
    simp only [pass1]
    split
    · obtain ⟨e, he⟩ := pass1_cov_grows n rs (sel ++ [r.question]) (cov ++ [r.standard_name])
      exact ⟨r.standard_name :: e, by simp [he]⟩
    · exact pass1_cov_grows n rs sel cov

/-- Once the selection has reached the limit, the first pass is inert. -/
theorem pass1_stuck (n : Int) :
    ∀ (rs : List Row) (sel cov : List String),
      ¬ ((sel.length : Int) < n) → pass1 n rs sel cov = (sel, cov)
  | [], sel, cov, _ => rfl
  | r :: rs, sel, cov, h => by
    simp only [pass1]
    rw [if_neg (fun hc => h hc.2)]
    exact pass1_stuck n rs sel cov h

/-- The first pass never exceeds the (nonnegative part of the) limit. -/
theorem pass1_len_le (n : Int) :
    ∀ (rs : List Row) (sel cov : List String),
      sel.length ≤ n.toNat → (pass1 n rs sel cov).1.length ≤ n.toNat
  | [], sel, cov, h => h
  | r :: rs, sel, cov, h => by
    simp only [pass1]
    split
    · rename_i hc
      refine pass1_len_le n rs _ _ ?_
      have := hc.2
      simp only [List.length_append, List.length_cons, List.length_nil]
      omega
    · exact pass1_len_le n rs sel cov h

/-- Every question the first pass selects comes from the scanned rows. -/
theorem pass1_sel_mem (n : Int) :
    ∀ (rs : List Row) (sel cov : List String) (q : String),
      q ∈ (pass1 n rs sel cov).1 → q ∈ sel ∨ ∃ r ∈ rs, r.question = q
  | [], sel, cov, q, h => Or.inl h
  | r :: rs, sel, cov, q, h => by
    simp only [pass1] at h
    split at h
    · rcases pass1_sel_mem n rs _ _ q h with h2 | ⟨r2, hr2, hq2⟩
      · rcases List.mem_append.mp h2 with h3 | h3
        · exact Or.inl h3
        · exact Or.inr ⟨r, List.mem_cons_self r rs, (List.mem_singleton.mp h3).symm⟩
      · exact Or.inr ⟨r2, List.mem_cons_of_mem r hr2, hq2⟩
    · rcases pass1_sel_mem n rs sel cov q h with h2 | ⟨r2, hr2, hq2⟩
      · exact Or.inl h2
      · exact Or.inr ⟨r2, List.mem_cons_of_mem r hr2, hq2⟩

/-- Coverage invariant of the first pass: a category appearing in the scanned
rows (or already covered) ends up covered, unless the limit was reached. -/
theorem pass1_coverage (n : Int) :
    ∀ (rs : List Row) (sel cov : List String) (c : String),
      (c ∈ rs.map (fun r => r.standard_name) ∨ c ∈ cov) →
      c ∈ (pass1 n rs sel cov).2 ∨ ¬ (((pass1 n rs sel cov).1.length : Int) < n)
  | [], sel, cov, c, h => by
    simp only [List.map_nil, List.not_mem_nil, false_or] at h
    exact Or.inl h
  | r :: rs, sel, cov, c, h => by
    by_cases hlen : ((sel.length : Int) < n)
    · simp only [pass1]
      split
      · refine pass1_coverage n rs _ _ c ?_
        simp only [List.map_cons, List.mem_cons] at h
        rcases h with (rfl | h) | h
        · exact Or.inr (List.mem_append_right cov (List.mem_singleton.mpr rfl))
        · exact Or.inl h
        · exact Or.inr (List.mem_append_left _ h)
      · rename_i hguard
        have hcovmem : r.standard_name ∈ cov := by
          by_contra hnc
          exact hguard ⟨hnc, hlen⟩
        refine pass1_coverage n rs sel cov c ?_
        simp only [List.map_cons, List.mem_cons] at h
        rcases h with (rfl | h) | h
        · exact Or.inr hcovmem
        · exact Or.inl h
        · exact Or.inr h
    · rw [pass1_stuck n (r :: rs) sel cov hlen]
      exact Or.inr hlen

/-- The covered categories all come from the scanned rows (or the initial
covered list). -/
theorem pass1_cov_sub (n : Int) :
    ∀ (rs : List Row) (sel cov : List String) (c : String),
      c ∈ (pass1 n rs sel cov).2 → c ∈ cov ∨ ∃ r ∈ rs, r.standard_name = c
  | [], sel, cov, c, h => Or.inl h
  | r :: rs, sel, cov, c, h => by
    simp only [pass1] at h
    split at h
    · rcases pass1_cov_sub n rs _ _ c h with h2 | ⟨r2, hr2, hc2⟩
      · rcases List.mem_append.mp h2 with h3 | h3
        · exact Or.inl h3
        · exact Or.inr ⟨r, List.mem_cons_self r rs, (List.mem_singleton.mp h3).symm⟩
      · exact Or.inr ⟨r2, List.mem_cons_of_mem r hr2, hc2⟩
    · rcases pass1_cov_sub n rs sel cov c h with h2 | ⟨r2, hr2, hc2⟩
      · exact Or.inl h2
      · exact Or.inr ⟨r2, List.mem_cons_of_mem r hr2, hc2⟩

/-- Main bookkeeping invariant of the first pass: the covered categories are
distinct, as many as the selected questions, and each covered category
contributed a selected question. -/
theorem pass1_good (n : Int) (R : List Row) :
    ∀ (rs : List Row) (sel cov : List String),
      (∀ r ∈ rs, r ∈ R) →
      cov.Nodup →
      cov.length = sel.length →
      (∀ c ∈ cov, ∃ r ∈ R, r.standard_name = c ∧ r.question ∈ sel) →
      (pass1 n rs sel cov).2.Nodup ∧
        (pass1 n rs sel cov).2.length = (pass1 n rs sel cov).1.length ∧
        (∀ c ∈ (pass1 n rs sel cov).2,
          ∃ r ∈ R, r.standard_name = c ∧ r.question ∈ (pass1 n rs sel cov).1)
  | [], sel, cov, _, h1, h2, h3 => by
    simpa [pass1] using ⟨h1, h2, h3⟩
  | r :: rs, sel, cov, hsub, h1, h2, h3 => by
    simp only [pass1]
    split
    · rename_i hguard
      refine pass1_good n R rs _ _ (fun x hx => hsub x (List.mem_cons_of_mem r hx)) ?_ ?_ ?_
      · simp only [List.nodup_append, h1, List.nodup_cons, List.not_mem_nil,
          List.nodup_nil, List.disjoint_singleton]
        exact ⟨by simp, ⟨by simp, hguard.1⟩⟩
      · simp [h2]
      · intro c hc
        rcases List.mem_append.mp hc with h4 | h4
        · obtain ⟨r2, hr2, hn2, hq2⟩ := h3 c h4
          exact ⟨r2, hr2, hn2, List.mem_append_left _ hq2⟩
        · refine ⟨r, hsub r (List.mem_cons_self r rs), (List.mem_singleton.mp h4).symm ▸ rfl, ?_⟩
          exact List.mem_append_right _ (List.mem_singleton.mpr rfl)
    · exact pass1_good n R rs sel cov (fun x hx => hsub x (List.mem_cons_of_mem r hx)) h1 h2 h3

/-- The second pass only appends to the running selection. -/
theorem pass2_grows (n : Int) :
    ∀ (rs : List Row) (sel : List String), ∃ extra, pass2 n rs sel = sel ++ extra
  | [], sel => ⟨[], by simp [pass2]⟩
  | r :: rs, sel => by
    simp only [pass2]
    split
    · obtain ⟨e, he⟩ := pass2_grows n rs (sel ++ [r.question])
      exact ⟨r.question :: e, by simp [he]⟩
    · exact pass2_grows n rs sel

/-- Once the selection has reached the limit, the second pass is inert. -/
theorem pass2_stuck (n : Int) :
    ∀ (rs : List Row) (sel : List String),
      ¬ ((sel.length : Int) < n) → pass2 n rs sel = sel
  | [], sel, _ => rfl
  | r :: rs, sel, h => by
    simp only [pass2]
    rw [if_neg (fun hc => h hc.2)]
    exact pass2_stuck n rs sel h

/-- The second pass never exceeds the (nonnegative part of the) limit. -/
theorem pass2_len_le (n : Int) :
    ∀ (rs : List Row) (sel : List String),
      sel.length ≤ n.toNat → (pass2 n rs sel).length ≤ n.toNat
  | [], sel, h => h
  | r :: rs, sel, h => by
    simp only [pass2]
    split
    · rename_i hc
      refine pass2_len_le n rs _ ?_
      have := hc.2
      simp only [List.length_append, List.length_cons, List.length_nil]
      omega
    · exact pass2_len_le n rs sel h

/-- Every question the second pass selects comes from the scanned rows. -/
theorem pass2_sel_mem (n : Int) :
    ∀ (rs : List Row) (sel : List String) (q : String),
      q ∈ pass2 n rs sel → q ∈ sel ∨ ∃ r ∈ rs, r.question = q
  | [], sel, q, h => Or.inl h
  | r :: rs, sel, q, h => by
    simp only [pass2] at h
    split at h
    · rcases pass2_sel_mem n rs _ q h with h2 | ⟨r2, hr2, hq2⟩
      · rcases List.mem_append.mp h2 with h3 | h3
        · exact Or.inl h3
        · exact Or.inr ⟨r, List.mem_cons_self r rs, (List.mem_singleton.mp h3).symm⟩
      · exact Or.inr ⟨r2, List.mem_cons_of_mem r hr2, hq2⟩
    · rcases pass2_sel_mem n rs sel q h with h2 | ⟨r2, hr2, hq2⟩
      · exact Or.inl h2
      · exact Or.inr ⟨r2, List.mem_cons_of_mem r hr2, hq2⟩

/-- The second pass preserves distinctness of the selection. -/
theorem pass2_nodup (n : Int) :
    ∀ (rs : List Row) (sel : List String), sel.Nodup → (pass2 n rs sel).Nodup
  | [], sel, h => h
  | r :: rs, sel, h => by
    simp only [pass2]
    split
    · rename_i hc
      refine pass2_nodup n rs _ ?_
      simp only [List.nodup_append, h, List.nodup_cons, List.not_mem_nil,
        List.nodup_nil, List.disjoint_singleton]
      exact ⟨by simp, ⟨by simp, hc.1⟩⟩
    · exact pass2_nodup n rs sel h

/-- If the second pass finishes below the limit, every scanned question made
it into the selection. -/
theorem pass2_all_in (n : Int) :
    ∀ (rs : List Row) (sel : List String),
      (((pass2 n rs sel).length : Int) < n) →
      (∀ q ∈ sel, q ∈ pass2 n rs sel) ∧ ∀ r ∈ rs, r.question ∈ pass2 n rs sel
  | [], sel, _ => ⟨fun q hq => hq, by simp⟩
  | r :: rs, sel, h => by
    by_cases hlen : ((sel.length : Int) < n)
    · simp only [pass2] at h ⊢
      split at h
      · rename_i hc
        rw [if_pos hc]
        obtain ⟨hmono, hall⟩ := pass2_all_in n rs (sel ++ [r.question]) h
        refine ⟨fun q hq => hmono q (List.mem_append_left _ hq), ?_⟩
        intro r2 hr2
        rcases List.mem_cons.mp hr2 with rfl | hr3
        · exact hmono r2.question (List.mem_append_right _ (List.mem_singleton.mpr rfl))
        · exact hall r2 hr3
      · rename_i hc
        rw [if_neg hc]
        have hqsel : r.question ∈ sel := by
          by_contra hq
          exact hc ⟨hq, hlen⟩
        obtain ⟨hmono, hall⟩ := pass2_all_in n rs sel h
        refine ⟨hmono, ?_⟩
        intro r2 hr2
        rcases List.mem_cons.mp hr2 with rfl | hr3
        · exact hmono r2.question hqsel
        · exact hall r2 hr3
    · rw [pass2_stuck n (r :: rs) sel hlen] at h
      exact absurd h hlen

/-- Slicing an empty list yields the empty list. -/
theorem pySliceTo_nil {α : Type} (n : Int) : pySliceTo n ([] : List α) = [] := by
  simp [pySliceTo]

/-- Slicing with a nonnegative bound at least the length is the identity. -/
theorem pySliceTo_of_le {α : Type} (n : Int) (l : List α) (h0 : 0 ≤ n)
    (h : l.length ≤ n.toNat) : pySliceTo n l = l := by
  simp only [pySliceTo, if_pos h0]
  exact List.take_of_length_le h

/-- The slice is always an initial segment. -/
theorem pySliceTo_sublist {α : Type} (n : Int) (l : List α) :
    (pySliceTo n l).Sublist l := by
  simp only [pySliceTo]
  split <;> exact List.take_sublist _ _

/-- A duplicate-free list contained in another list is no longer than it. -/
theorem nodup_length_le {sub l : List String} (hn : sub.Nodup)
    (hsl : ∀ c ∈ sub, c ∈ l) : sub.length ≤ l.length := by
  calc sub.length = sub.toFinset.card := (List.toFinset_card_of_nodup hn).symm
    _ ≤ l.toFinset.card := by
        refine Finset.card_le_card ?_
        intro x hx
        simp only [List.mem_toFinset] at hx ⊢
        exact hsl x hx
    _ ≤ l.length := l.toFinset_card_le

/-- Duplicate-freedom invariant of the first pass, under the assumption that
a question string determines its category: the selection stays
duplicate-free because a repeated question would come from an
already-covered category. -/
theorem pass1_nodup (n : Int) (R : List Row)
    (H : ∀ r1 ∈ R, ∀ r2 ∈ R, r1.question = r2.question → r1.standard_name = r2.standard_name) :
    ∀ (rs : List Row) (sel cov : List String),
      (∀ r ∈ rs, r ∈ R) →
      sel.Nodup →
      (∀ q ∈ sel, ∃ r ∈ R, r.question = q ∧ r.standard_name ∈ cov) →
      (pass1 n rs sel cov).1.Nodup ∧
        ∀ q ∈ (pass1 n rs sel cov).1,
          ∃ r ∈ R, r.question = q ∧ r.standard_name ∈ (pass1 n rs sel cov).2
  | [], sel, cov, _, h1, h2 => by
    simpa [pass1] using ⟨h1, h2⟩
  | r :: rs, sel, cov, hsub, h1, h2 => by
    simp only [pass1]
    split
    · rename_i hguard
      have hrR : r ∈ R := hsub r (List.mem_cons_self r rs)
      have hnotsel : r.question ∉ sel := by
        intro hq
        obtain ⟨r2, hr2, hq2, hc2⟩ := h2 r.question hq
        exact hguard.1 (H r2 hr2 r hrR hq2 ▸ hc2)
      refine pass1_nodup n R H rs _ _ (fun x hx => hsub x (List.mem_cons_of_mem r hx)) ?_ ?_
      · simp [List.nodup_append, h1, hnotsel]
      · intro q hq
        rcases List.mem_append.mp hq with h4 | h4
        · obtain ⟨r2, hr2, hq2, hc2⟩ := h2 q h4
          exact ⟨r2, hr2, hq2, List.mem_append_left _ hc2⟩
        · exact ⟨r, hrR, (List.mem_singleton.mp h4).symm,
            List.mem_append_right _ (List.mem_singleton.mpr rfl)⟩
    · exact pass1_nodup n R H rs sel cov
        (fun x hx => hsub x (List.mem_cons_of_mem r hx)) h1 h2

/-- Unfolding of `_select_best_questions` on a nonempty frame. -/
theorem select_eq_pass (standards : List CriticalThinkingStandard) (n : Int)
    (h : dfRows standards ≠ []) :
    select_best_questions standards n =
      pySliceTo n (pass2 n (rankedRows standards)
        (pass1 n (rankedRows standards) [] []).1) := by
  simp [select_best_questions, h]

/-- A question-determines-category hypothesis transfers from the frame to the
sorted frame. -/
theorem rankedH (standards : List CriticalThinkingStandard)
    (H : ∀ r1 ∈ dfRows standards, ∀ r2 ∈ dfRows standards,
      r1.question = r2.question → r1.standard_name = r2.standard_name) :
    ∀ r1 ∈ rankedRows standards, ∀ r2 ∈ rankedRows standards,
      r1.question = r2.question → r1.standard_name = r2.standard_name := by
  intro r1 h1 r2 h2 hq
  obtain ⟨o1, ho1, hc1, hq1⟩ := mem_rankedRows_orig h1
  obtain ⟨o2, ho2, hc2, hq2⟩ := mem_rankedRows_orig h2
  have := H o1 ho1 o2 ho2 (by rw [hq1, hq2, hq])
  rw [← hc1, ← hc2, this]

/-- A question of the sorted frame is a question of the raw frame, and
conversely. -/
theorem rankedRows_question_iff (standards : List CriticalThinkingStandard) (q : String) :
    (∃ r ∈ rankedRows standards, r.question = q) ↔
      ∃ r ∈ dfRows standards, r.question = q := by
  constructor
  · rintro ⟨r, hr, rfl⟩
    obtain ⟨r0, hr0, _, hq0⟩ := mem_rankedRows_orig hr
    exact ⟨r0, hr0, hq0⟩
  · rintro ⟨r, hr, rfl⟩
    refine ⟨{ r with impact_score :=
      r.impact_score + 50 / (categoryCount (dfRows standards) r.standard_name : ℚ) }, ?_, rfl⟩
    exact (rankedRows_perm standards).mem_iff.mpr (mem_applyBonus.mpr ⟨r, hr, rfl⟩)

/-- The category column of the sorted frame is a permutation of the raw
frame's category column. -/
theorem rankedRows_map_name_perm (standards : List CriticalThinkingStandard) :
    List.Perm ((rankedRows standards).map (fun r => r.standard_name))
      ((dfRows standards).map (fun r => r.standard_name)) := by
  have h := (rankedRows_perm standards).map (fun r => r.standard_name)
  rwa [applyBonus_map_name] at h

/-- C2 (amended form): `_select_best_questions` returns at most `limit`
questions, each a verbatim question of some standard; the result is
duplicate-free provided no question string is shared by two different
categories of the flattened frame (the first pass checks only categories, so
a question shared across categories may be selected twice). -/
theorem select_best_questions_output_contract :
    ∀ (standards : List CriticalThinkingStandard) (limit : Int),
      (select_best_questions standards limit).length ≤ limit.toNat ∧
      (∀ q ∈ select_best_questions standards limit,
        ∃ s ∈ standards, q ∈ s.followup_questions) ∧
      ((∀ r1 ∈ dfRows standards, ∀ r2 ∈ dfRows standards,
          r1.question = r2.question → r1.standard_name = r2.standard_name) →
        (select_best_questions standards limit).Nodup) := by
  intro standards limit
  by_cases hdf : dfRows standards = []
  · simp [select_best_questions, hdf]
  · rw [select_eq_pass standards limit hdf]
    have hsel1 := pass1_len_le limit (rankedRows standards) [] [] (Nat.zero_le _)
    have hout := pass2_len_le limit (rankedRows standards) _ hsel1
    refine ⟨?_, ?_, ?_⟩
    · simp only [pySliceTo]
      split
      · exact le_trans (List.length_take_le _ _) le_rfl
      · rename_i hneg
        have h0 : ¬ (((([] : List String)).length : Int) < limit) := by
          simp only [List.length_nil, Int.ofNat_zero]
          omega
        rw [pass1_stuck limit _ [] [] h0, pass2_stuck limit _ [] h0]
        simp
    · intro q hq
      have hq2 := (pySliceTo_sublist limit _).mem hq
      have hq3 : ∃ r ∈ rankedRows standards, r.question = q := by
        rcases pass2_sel_mem limit _ _ q hq2 with h4 | h4
        · rcases pass1_sel_mem limit _ _ _ q h4 with h5 | h5
          · simp at h5
          · exact h5
        · exact h4
      obtain ⟨r, hr, rfl⟩ := hq3
      obtain ⟨r0, hr0, _, hq0⟩ := mem_rankedRows_orig hr
      obtain ⟨_, s, hs, _, _, hqs⟩ := mem_dfRows_spec hr0
      exact ⟨s, hs, hq0 ▸ hqs⟩
    · intro H
      have H2 := rankedH standards H
      have hnd1 := (pass1_nodup limit (rankedRows standards) H2 (rankedRows standards)
        [] [] (fun x hx => hx) List.nodup_nil (by simp)).1
      have hnd2 := pass2_nodup limit (rankedRows standards) _ hnd1
      exact hnd2.sublist (pySliceTo_sublist limit _)

/-- Witness for the output contract at a concrete input. -/
theorem select_best_questions_output_contract_witness :
    (select_best_questions [⟨"Clarity", "", 3, ["q1", "q2"]⟩] 1).Nodup ∧
      (select_best_questions [⟨"Clarity", "", 3, ["q1", "q2"]⟩] 1).length ≤ (1 : Int).toNat := by
  have h := select_best_questions_output_contract [⟨"Clarity", "", 3, ["q1", "q2"]⟩] 1
  exact ⟨h.2.2 (by decide), h.1⟩

/-- C2 counterexample: two categories sharing one question string make the
first pass select the same string twice, so the output has duplicates. -/
theorem select_best_questions_duplicate_counterexample :
    select_best_questions [⟨"CatX", "", 5, ["dup"]⟩, ⟨"CatY", "", 5, ["dup"]⟩] 2
        = ["dup", "dup"] ∧
      ¬ (select_best_questions [⟨"CatX", "", 5, ["dup"]⟩, ⟨"CatY", "", 5, ["dup"]⟩] 2).Nodup := by
  have h : select_best_questions [⟨"CatX", "", 5, ["dup"]⟩, ⟨"CatY", "", 5, ["dup"]⟩] 2
      = ["dup", "dup"] := by
    norm_num +decide [select_best_questions, rankedRows, sortRowsDesc, applyBonus, dfRows,
      flattenQuestions, categoryCount, List.flatMap_cons, List.enum, List.enumFrom,
      List.filter, List.insertionSort, List.orderedInsert, pass1, pass2, pySliceTo, rowGE]
  rw [h]
  exact ⟨rfl, by decide⟩

/-- C7 (amended form): the ranker returns the empty list when the flattened
candidate set is empty or the limit is nonpositive, a standard with no
follow-up questions contributes nothing, and — provided no question string is
shared by two different categories — a candidate pool with fewer distinct
questions than the limit is returned in full, below the limit.  (With a
shared question string the selection can fill up to the limit with
duplicates and drop candidates; see the counterexample.) -/
theorem select_best_questions_edge_cases :
    ∀ (standards : List CriticalThinkingStandard) (limit : Int)
      (s0 : CriticalThinkingStandard),
      (flattenQuestions standards = [] → select_best_questions standards limit = []) ∧
      (limit ≤ 0 → select_best_questions standards limit = []) ∧
      (s0.followup_questions = [] →
        select_best_questions (s0 :: standards) limit =
          select_best_questions standards limit) ∧
      ((∀ r1 ∈ dfRows standards, ∀ r2 ∈ dfRows standards,
          r1.question = r2.question → r1.standard_name = r2.standard_name) →
        ((((dfRows standards).map (fun r => r.question)).dedup.length : Int) < limit →
          (∀ r ∈ dfRows standards, r.question ∈ select_best_questions standards limit) ∧
          ((select_best_questions standards limit).length : Int) < limit)) := by
  intro standards limit s0
  refine ⟨?_, ?_, ?_, ?_⟩
  · intro h
    have hdf : dfRows standards = [] := by simp [dfRows, h]
    simp [select_best_questions, hdf]
  · intro hle
    by_cases hdf : dfRows standards = []
    · simp [select_best_questions, hdf]
    · rw [select_eq_pass standards limit hdf]
      have h0 : ¬ (((([] : List String)).length : Int) < limit) := by
        simp only [List.length_nil, Int.ofNat_zero]
        omega
      rw [pass1_stuck limit _ [] [] h0]
      rw [show (([], []) : List String × List String).1 = [] from rfl]
      rw [pass2_stuck limit _ [] h0, pySliceTo_nil]
  · intro h
    have hd : dfRows (s0 :: standards) = dfRows standards := by
      simp [dfRows, flattenQuestions, h]
    simp only [select_best_questions, rankedRows, hd]
  · intro H hlt
    by_cases hdf : dfRows standards = []
    · constructor
      · simp [hdf]
      · have h2 : ((((dfRows standards).map (fun r => r.question)).dedup.length : Int)) = 0 := by
          simp [hdf]
        simp only [select_best_questions, hdf, if_pos]
        simp only [List.length_nil, Int.ofNat_zero]
        omega
    · have H2 := rankedH standards H
      have hnd1 := (pass1_nodup limit (rankedRows standards) H2 (rankedRows standards)
        [] [] (fun x hx => hx) List.nodup_nil (by simp)).1
      have hnd2 := pass2_nodup limit (rankedRows standards) _ hnd1
      have houtmem : ∀ q ∈ pass2 limit (rankedRows standards)
          (pass1 limit (rankedRows standards) [] []).1,
          q ∈ ((dfRows standards).map (fun r => r.question)).dedup := by
        intro q hq
        have hq3 : ∃ r ∈ rankedRows standards, r.question = q := by
          rcases pass2_sel_mem limit _ _ q hq with h4 | h4
          · rcases pass1_sel_mem limit _ _ _ q h4 with h5 | h5
            · simp at h5
            · exact h5
          · exact h4
        obtain ⟨r0, hr0, hq0⟩ := (rankedRows_question_iff standards q).mp hq3
        exact List.mem_dedup.mpr (List.mem_map.mpr ⟨r0, hr0, hq0⟩)
      have houtle := nodup_length_le hnd2 houtmem
      have houtlt : ((pass2 limit (rankedRows standards)
          (pass1 limit (rankedRows standards) [] []).1).length : Int) < limit := by
        omega
      have h0le : (0 : Int) ≤ limit := by omega
      have hid := pySliceTo_of_le limit
        (pass2 limit (rankedRows standards) (pass1 limit (rankedRows standards) [] []).1)
        h0le (by omega)
      rw [select_eq_pass standards limit hdf, hid]
      refine ⟨?_, houtlt⟩
      intro r hr
      obtain ⟨r2, hr2, hq2⟩ := (rankedRows_question_iff standards r.question).mpr ⟨r, hr, rfl⟩
      have := (pass2_all_in limit (rankedRows standards)
        (pass1 limit (rankedRows standards) [] []).1 houtlt).2 r2 hr2
      rwa [hq2] at this

/-- Witness for the edge cases at concrete inputs. -/
theorem select_best_questions_edge_cases_witness :
    select_best_questions [⟨"A", "", 5, ["onlyq"]⟩] 0 = [] ∧
      "onlyq" ∈ select_best_questions [⟨"A", "", 5, ["onlyq"]⟩] 2 ∧
      ((select_best_questions [⟨"A", "", 5, ["onlyq"]⟩] 2).length : Int) < 2 := by
  have h := select_best_questions_edge_cases [⟨"A", "", 5, ["onlyq"]⟩] 2 ⟨"Z", "", 0, []⟩
  have h0 := select_best_questions_edge_cases [⟨"A", "", 5, ["onlyq"]⟩] 0 ⟨"Z", "", 0, []⟩
  have hdfq : ∀ r ∈ dfRows [⟨"A", "", 5, ["onlyq"]⟩], r.question = "onlyq" := by decide
  have hdfm : ∃ r ∈ dfRows [⟨"A", "", 5, ["onlyq"]⟩], True := by decide
  obtain ⟨r0, hr0, _⟩ := hdfm
  have hmain := h.2.2.2 (by decide) (by decide)
  refine ⟨h0.2.1 le_rfl, ?_, hmain.2⟩
  have := hmain.1 r0 hr0
  rwa [hdfq r0 hr0] at this

/-- C7 counterexample: with a question shared by three categories and a
fourth category holding the lowest-scored question, the distinct-candidate
count (2) is below the limit (3), yet the ranker fills the selection with
the duplicate and drops the other candidate, returning exactly `limit`
entries. -/
theorem select_best_questions_small_pool_counterexample :
    select_best_questions
        [⟨"A", "", 0, ["Q"]⟩, ⟨"B", "", 0, ["Q"]⟩, ⟨"C", "", 0, ["Q"]⟩, ⟨"D", "", 9, ["R"]⟩] 3
      = ["Q", "Q", "Q"] ∧
    (((dfRows [⟨"A", "", 0, ["Q"]⟩, ⟨"B", "", 0, ["Q"]⟩, ⟨"C", "", 0, ["Q"]⟩,
        ⟨"D", "", 9, ["R"]⟩]).map (fun r => r.question)).dedup.length : Int) < 3 ∧
    "R" ∈ (dfRows [⟨"A", "", 0, ["Q"]⟩, ⟨"B", "", 0, ["Q"]⟩, ⟨"C", "", 0, ["Q"]⟩,
        ⟨"D", "", 9, ["R"]⟩]).map (fun r => r.question) ∧
    "R" ∉ select_best_questions
        [⟨"A", "", 0, ["Q"]⟩, ⟨"B", "", 0, ["Q"]⟩, ⟨"C", "", 0, ["Q"]⟩, ⟨"D", "", 9, ["R"]⟩] 3 ∧
    ¬ ((select_best_questions
        [⟨"A", "", 0, ["Q"]⟩, ⟨"B", "", 0, ["Q"]⟩, ⟨"C", "", 0, ["Q"]⟩, ⟨"D", "", 9, ["R"]⟩] 3).length
          : Int) < 3 := by
  have hsel : select_best_questions
      [⟨"A", "", 0, ["Q"]⟩, ⟨"B", "", 0, ["Q"]⟩, ⟨"C", "", 0, ["Q"]⟩, ⟨"D", "", 9, ["R"]⟩] 3
      = ["Q", "Q", "Q"] := by
    norm_num +decide [select_best_questions, rankedRows, sortRowsDesc, applyBonus, dfRows,
      flattenQuestions, categoryCount, List.flatMap_cons, List.enum, List.enumFrom,
      List.filter, List.insertionSort, List.orderedInsert, pass1, pass2, pySliceTo, rowGE]
  have hmapq : (dfRows [⟨"A", "", 0, ["Q"]⟩, ⟨"B", "", 0, ["Q"]⟩, ⟨"C", "", 0, ["Q"]⟩,
      ⟨"D", "", 9, ["R"]⟩]).map (fun r => r.question) = ["Q", "Q", "Q", "R"] := by
    norm_num +decide [dfRows, flattenQuestions, List.flatMap_cons, List.enum, List.enumFrom]
  rw [hsel, hmapq]
  refine ⟨rfl, by decide, by decide, by decide, by decide⟩

/-- C4: for a positive limit the selection covers at least
`min limit (number of distinct contributing categories)` distinct categories
— the first pass covers one new category per pick until the limit or the
categories run out, and the second pass only appends. -/
theorem select_best_questions_diversity :
    ∀ (standards : List CriticalThinkingStandard) (limit : Int), 0 < limit →
      min limit.toNat (((dfRows standards).map (fun r => r.standard_name)).dedup.length) ≤
        ((((dfRows standards).map (fun r => r.standard_name)).dedup).filter
          (fun c => decide (∃ r ∈ dfRows standards, r.standard_name = c ∧
            r.question ∈ select_best_questions standards limit))).length ∧
      (∃ extra, pass2 limit (rankedRows standards)
          (pass1 limit (rankedRows standards) [] []).1
        = (pass1 limit (rankedRows standards) [] []).1 ++ extra) := by
  intro standards limit hpos
  refine ⟨?_, pass2_grows limit _ _⟩
  by_cases hdf : dfRows standards = []
  · simp [hdf]
  · have hgood := pass1_good limit (rankedRows standards) (rankedRows standards) [] []
      (fun x hx => hx) List.nodup_nil rfl (by simp)
    have hsel1len := pass1_len_le limit (rankedRows standards) [] [] (Nat.zero_le _)
    have houtlen := pass2_len_le limit (rankedRows standards) _ hsel1len
    have h0le : (0 : Int) ≤ limit := le_of_lt hpos
    have hid := pySliceTo_of_le limit
      (pass2 limit (rankedRows standards) (pass1 limit (rankedRows standards) [] []).1)
      h0le houtlen
    have hselres : ∀ q ∈ (pass1 limit (rankedRows standards) [] []).1,
        q ∈ select_best_questions standards limit := by
      intro q hq
      rw [select_eq_pass standards limit hdf, hid]
      obtain ⟨extra, hex⟩ := pass2_grows limit (rankedRows standards)
        (pass1 limit (rankedRows standards) [] []).1
      rw [hex]
      exact List.mem_append_left _ hq
    -- each covered category has a selected question from the raw frame
    have hcovpred : ∀ c ∈ (pass1 limit (rankedRows standards) [] []).2,
        (∃ r ∈ dfRows standards, r.standard_name = c ∧
          r.question ∈ select_best_questions standards limit) := by
      intro c hc
      obtain ⟨r, hr, hname, hqsel⟩ := hgood.2.2 c hc
      obtain ⟨r0, hr0, hc0, hq0⟩ := mem_rankedRows_orig hr
      exact ⟨r0, hr0, hc0.trans hname, hq0 ▸ hselres r.question hqsel⟩
    -- the covered categories sit inside the deduplicated category column
    have hcovsub : ∀ c ∈ (pass1 limit (rankedRows standards) [] []).2,
        c ∈ ((dfRows standards).map (fun r => r.standard_name)).dedup := by
      intro c hc
      rcases pass1_cov_sub limit _ _ _ c hc with h2 | ⟨r, hr, hc2⟩
      · simp at h2
      · refine List.mem_dedup.mpr ?_
        refine (rankedRows_map_name_perm standards).mem_iff.mp ?_
        exact List.mem_map.mpr ⟨r, hr, hc2⟩
    have hcount : (pass1 limit (rankedRows standards) [] []).2.length ≤
        ((((dfRows standards).map (fun r => r.standard_name)).dedup).filter
          (fun c => decide (∃ r ∈ dfRows standards, r.standard_name = c ∧
            r.question ∈ select_best_questions standards limit))).length := by
      refine nodup_length_le hgood.1 ?_
      intro c hc
      refine List.mem_filter.mpr ⟨hcovsub c hc, ?_⟩
      exact decide_eq_true (hcovpred c hc)
    refine le_trans ?_ hcount
    by_cases hstuck : (((pass1 limit (rankedRows standards) [] []).1.length : Int) < limit)
    · -- the limit was not reached: every category got covered
      have hallcov : ∀ c ∈ ((dfRows standards).map (fun r => r.standard_name)).dedup,
          c ∈ (pass1 limit (rankedRows standards) [] []).2 := by
        intro c hc
        have hc2 : c ∈ (rankedRows standards).map (fun r => r.standard_name) :=
          (rankedRows_map_name_perm standards).mem_iff.mpr (List.mem_dedup.mp hc)
        rcases pass1_coverage limit (rankedRows standards) [] [] c (Or.inl hc2) with h3 | h3
        · exact h3
        · exact absurd hstuck h3
      have := nodup_length_le (List.nodup_dedup _) hallcov
      exact le_trans (min_le_right _ _) this
    · have hlen : limit.toNat ≤ (pass1 limit (rankedRows standards) [] []).1.length := by
        omega
      rw [← hgood.2.1] at hlen
      exact le_trans (min_le_left _ _) hlen

/-- Witness for the diversity guarantee at a concrete input. -/
theorem select_best_questions_diversity_witness :
    min (1 : Int).toNat
        (((dfRows [⟨"A", "", 2, ["a1"]⟩, ⟨"B", "", 7, ["b1"]⟩]).map
          (fun r => r.standard_name)).dedup.length) ≤
      ((((dfRows [⟨"A", "", 2, ["a1"]⟩, ⟨"B", "", 7, ["b1"]⟩]).map
          (fun r => r.standard_name)).dedup).filter
        (fun c => decide (∃ r ∈ dfRows [⟨"A", "", 2, ["a1"]⟩, ⟨"B", "", 7, ["b1"]⟩],
          r.standard_name = c ∧
          r.question ∈ select_best_questions [⟨"A", "", 2, ["a1"]⟩, ⟨"B", "", 7, ["b1"]⟩] 1))).length :=
  (select_best_questions_diversity [⟨"A", "", 2, ["a1"]⟩, ⟨"B", "", 7, ["b1"]⟩] 1 (by decide)).1

/-! ## Claims about video-identifier resolution -/

/-- The only raise in `extract_video_id` is the builtin `ValueError` of
`extractors.py` line 56. -/
theorem extract_video_id_error_shape {url : String} {e : PyExc}
    (h : extract_video_id url = Except.error e) :
    e = PyExc.valueError ("Could not extract video ID from URL: " ++ url) := by
  simp only [extract_video_id] at h
  split at h
  · exact absurd h (by simp)
  · split at h
    · exact absurd h (by simp)
    · split at h
      · exact absurd h (by simp)
      · split at h
        · exact absurd h (by simp)
        · simp only [Except.error.injEq] at h
          exact h.symm

/-- Recognizer for a raised `utils.errors.ValidationError`. -/
def errIsValidationError : Except PyExc String → Bool
  | .error (.validationError _) => true
  | _ => false

/-- C8 counterexample: on an unparseable URL, `extract_video_id` raises the
builtin `ValueError`, not the repository's `ValidationError` (which no code
path ever raises). -/
theorem extract_video_id_validation_counterexample :
    extract_video_id "" =
        Except.error (PyExc.valueError "Could not extract video ID from URL: ") ∧
      errIsValidationError (extract_video_id "") = false := by
  exact ⟨rfl, rfl⟩

/-- C8 (amended form): whenever `extract_video_id` fails, the raised
exception is the builtin `ValueError` carrying the unparseable URL, and
`analyze_video` wraps it into `PipelineError`. -/
theorem extract_video_id_failure_contract :
    ∀ (url : String) (e : PyExc), extract_video_id url = Except.error e →
      e = PyExc.valueError ("Could not extract video ID from URL: " ++ url) ∧
      ∀ (B : Backends) (config : Option PipelineConfig) (instruction : Option String),
        analyze_video B url config instruction =
          Except.error (PyExc.pipelineError
            ("Analysis pipeline failed: " ++
              ("Could not extract video ID from URL: " ++ url))) := by
  intro url e h
  have hshape := extract_video_id_error_shape h
  refine ⟨hshape, ?_⟩
  intro B config instruction
  subst hshape
  simp only [analyze_video, analyzeVideoInner]
  rw [h]
  rfl

/-- Witness for the failure contract at the empty URL. -/
theorem extract_video_id_failure_contract_witness :
    analyze_video
      { fetch_video_metadata := fun _ => Except.error "unused"
        fetch_transcript := fun _ => Except.error "unused"
        fetch_comments := fun _ _ _ => Except.error "unused"
        generate_transcript_summary := fun _ _ _ => Except.error "unused"
        generate_comments_summary := fun _ _ => Except.error "unused"
        compress_content := fun _ _ _ => Except.error "unused"
        evaluate_standards := fun _ _ _ => Except.error "unused" } "" none none =
      Except.error (PyExc.pipelineError
        ("Analysis pipeline failed: " ++
          ("Could not extract video ID from URL: " ++ ""))) :=
  (extract_video_id_failure_contract ""
    (PyExc.valueError ("Could not extract video ID from URL: " ++ "")) rfl).2 _ none none

/-! ## Claims about the transcript invariant -/

/-- C9: every `TranscriptData` the pipeline produces — on each return path of
`fetch_transcript` (for arbitrary outcomes of the three fetch mechanisms)
and in the orchestrator's failure substitute — satisfies: not available
implies no text and a zero word count. -/
theorem fallback_unavailable_invariant :
    ∀ (api : Except TApiErr (List String)) (alt : Except String (List String)),
      (fetchTranscriptFallback api alt).available = false →
      (fetchTranscriptFallback api alt).text = none ∧
        (fetchTranscriptFallback api alt).word_count = 0 := by
  intro api alt hav
  cases api with
  | ok segs => simp [fetchTranscriptFallback, availableTranscript] at hav
  | error e =>
    cases e with
    | transcriptsDisabled => simp [fetchTranscriptFallback]
    | other m =>
      by_cases hc : pyContainsSub m "No transcripts were found" = true
      · cases alt with
        | ok segs => simp [fetchTranscriptFallback, hc, availableTranscript] at hav
        | error m2 => simp [fetchTranscriptFallback, hc, allMethodsFailed]
      · simp [fetchTranscriptFallback, hc, allMethodsFailed]

/-- C9: every `TranscriptData` the pipeline produces — on each return path of
`fetch_transcript` (for arbitrary outcomes of the three fetch mechanisms)
and in the orchestrator's failure substitute — satisfies: not available
implies no text and a zero word count. -/
theorem fetch_transcript_unavailable_invariant :
    ∀ (ytdlp : Except String String) (api : Except TApiErr (List String))
      (alt : Except String (List String)),
      ((fetch_transcript ytdlp api alt).available = false →
        (fetch_transcript ytdlp api alt).text = none ∧
        (fetch_transcript ytdlp api alt).word_count = 0) ∧
      (unavailableTranscript.available = false ∧ unavailableTranscript.text = none ∧
        unavailableTranscript.word_count = 0) := by
  intro ytdlp api alt
  refine ⟨?_, rfl, rfl, rfl⟩
  intro hav
  cases ytdlp with
  | ok t =>
    by_cases ht : t = ""
    · simp only [fetch_transcript, ht, ne_eq, not_true_eq_false, if_false,
        reduceIte] at hav ⊢
      exact fallback_unavailable_invariant api alt hav
    · simp [fetch_transcript, ht, availableTranscript] at hav
  | error m =>
    simp only [fetch_transcript] at hav ⊢
    exact fallback_unavailable_invariant api alt hav

/-- Witness for the transcript invariant on a concrete failing run. -/
theorem fetch_transcript_unavailable_invariant_witness :
    (fetch_transcript (Except.error "boom") (Except.error TApiErr.transcriptsDisabled)
        (Except.error "boom")).text = none ∧
      (fetch_transcript (Except.error "boom") (Except.error TApiErr.transcriptsDisabled)
        (Except.error "boom")).word_count = 0 :=
  (fetch_transcript_unavailable_invariant (Except.error "boom")
    (Except.error TApiErr.transcriptsDisabled) (Except.error "boom")).1 rfl

/-! ## Frame lemmas for the chain stages -/

theorem step1Transcript_disabled (B : Backends) (ctx : ProcessingContext)
    (h : ctx.config.enable_transcript = false) : step1Transcript B ctx = ctx := by
  simp [step1Transcript, h]

theorem step1Transcript_fail (B : Backends) (ctx : ProcessingContext) (em : String)
    (hen : ctx.config.enable_transcript = true)
    (hf : B.fetch_transcript ctx.video_metadata.video_id = Except.error em) :
    step1Transcript B ctx = { ctx with
      transcript := some unavailableTranscript,
      processing_steps := ctx.processing_steps ++
        [failStep "extract_transcript" ctx.video_metadata.video_id em] } := by
  simp [step1Transcript, hen, hf]

theorem step1Transcript_ok (B : Backends) (ctx : ProcessingContext) (t : TranscriptData)
    (hen : ctx.config.enable_transcript = true)
    (hf : B.fetch_transcript ctx.video_metadata.video_id = Except.ok t) :
    step1Transcript B ctx = { ctx with
      transcript := some t,
      processing_steps := ctx.processing_steps ++
        [okStep "extract_transcript" ctx.video_metadata.video_id
          ("Transcript available: " ++ pyBool t.available ++ ", Words: " ++ toString t.word_count)] } := by
  simp [step1Transcript, hen, hf]

theorem step1Transcript_frame (B : Backends) (ctx : ProcessingContext) :
    ∃ t l, step1Transcript B ctx =
      { ctx with transcript := t, processing_steps := ctx.processing_steps ++ l } ∧
      ∀ s ∈ l, s.step_name = "extract_transcript" := by
  unfold step1Transcript
  split
  · split
    · exact ⟨_, _, rfl, by simp [okStep]⟩
    · exact ⟨_, _, rfl, by simp [failStep]⟩
  · exact ⟨ctx.transcript, [], by simp, by simp⟩

theorem step1Comments_fail (B : Backends) (ctx : ProcessingContext) (em : String)
    (hen : ctx.config.enable_comments = true)
    (hf : B.fetch_comments ctx.video_metadata.video_id
      ctx.config.max_comments ctx.config.max_total_word_length = Except.error em) :
    step1Comments B ctx = { ctx with
      comments := some emptyCommentsData,
      processing_steps := ctx.processing_steps ++
        [failStep "extract_comments" ctx.video_metadata.video_id em] } := by
  simp [step1Comments, hen, hf]

theorem step1Comments_ok (B : Backends) (ctx : ProcessingContext) (c : CommentsData)
    (hen : ctx.config.enable_comments = true)
    (hf : B.fetch_comments ctx.video_metadata.video_id
      ctx.config.max_comments ctx.config.max_total_word_length = Except.ok c) :
    step1Comments B ctx = { ctx with
      comments := some c,
      processing_steps := ctx.processing_steps ++
        [okStep "extract_comments" ctx.video_metadata.video_id
          ("Comments: " ++ toString c.total_count ++ ", Words: " ++ toString c.total_word_count)] } := by
  simp [step1Comments, hen, hf]

theorem step1Comments_frame (B : Backends) (ctx : ProcessingContext) :
    ∃ cd l, step1Comments B ctx =
      { ctx with comments := some cd, processing_steps := ctx.processing_steps ++ l } ∧
      ∀ s ∈ l, s.step_name = "extract_comments" := by
  unfold step1Comments
  split
  · split
    · exact ⟨_, _, rfl, by simp [okStep]⟩
    · exact ⟨_, _, rfl, by simp [failStep]⟩
  · exact ⟨emptyCommentsData, [], by simp, by simp⟩

theorem step2Transcript_frame (B : Backends) (ctx : ProcessingContext) (instr : String) :
    ∃ ts l, step2Transcript B ctx instr =
      { ctx with transcript_summary := ts, processing_steps := ctx.processing_steps ++ l } ∧
      ∀ s ∈ l, s.step_name = "process_transcript" := by
  unfold step2Transcript
  split
  · split
    · exact ⟨ctx.transcript_summary, [], by simp, by simp⟩
    · split
      · split
        · exact ⟨_, _, rfl, by simp [okStep]⟩
        · exact ⟨ctx.transcript_summary, _, rfl, by simp [failStep]⟩
      · exact ⟨ctx.transcript_summary, [], by simp, by simp⟩
  · exact ⟨ctx.transcript_summary, [], by simp, by simp⟩

theorem step2Comments_frame (B : Backends) (ctx : ProcessingContext) :
    ∃ cs l, step2Comments B ctx =
      { ctx with comments_summary := cs, processing_steps := ctx.processing_steps ++ l } ∧
      ∀ s ∈ l, s.step_name = "process_comments" := by
  unfold step2Comments
  split
  · split
    · exact ⟨ctx.comments_summary, [], by simp, by simp⟩
    · split
      · split
        · exact ⟨_, _, rfl, by simp [okStep]⟩
        · exact ⟨_, _, rfl, by simp [failStep]⟩
      · exact ⟨ctx.comments_summary, [], by simp, by simp⟩
  · exact ⟨ctx.comments_summary, [], by simp, by simp⟩

theorem step2Transcript_fail (B : Backends) (ctx : ProcessingContext) (instr : String)
    (t : TranscriptData) (em : String)
    (hen : ctx.config.enable_transcript_processing = true)
    (ht : ctx.transcript = some t) (hav : t.available = true)
    (hf : B.generate_transcript_summary t instr ctx.config = Except.error em) :
    step2Transcript B ctx instr = { ctx with
      processing_steps := ctx.processing_steps ++
        [failStep "process_transcript"
          ("Transcript (" ++ toString t.word_count ++ " words)") em] } := by
  simp [step2Transcript, hen, ht, hav, hf]

theorem step2Comments_fail (B : Backends) (ctx : ProcessingContext)
    (c : CommentsData) (em : String)
    (hen : ctx.config.enable_comments_processing = true)
    (hc : ctx.comments = some c) (hpos : 0 < c.total_count)
    (hf : B.generate_comments_summary c ctx.config = Except.error em) :
    step2Comments B ctx = { ctx with
      comments_summary := some "",
      processing_steps := ctx.processing_steps ++
        [failStep "process_comments"
          ("Comments (" ++ toString c.total_count ++ " items)") em] } := by
  simp [step2Comments, hen, hc, hpos, hf]

theorem step3_disabled (B : Backends) (ctx : ProcessingContext)
    (h : ctx.config.enable_synthesis = false) :
    step_3_synthesize_content B ctx =
      Except.ok { ctx with compressed_summary := some (bestAvailableSummary ctx) } := by
  simp [step_3_synthesize_content, h]

theorem step3_ok_frame (B : Backends) (ctx ctx2 : ProcessingContext)
    (h : step_3_synthesize_content B ctx = Except.ok ctx2) :
    ∃ cp l, ctx2 =
      { ctx with compressed_summary := some cp, processing_steps := ctx.processing_steps ++ l } ∧
      ∀ s ∈ l, s.step_name = "synthesize_content" := by
  unfold step_3_synthesize_content at h
  split at h
  · exact ⟨_, [], by simpa using h.symm, by simp⟩
  · split at h
    · exact ⟨_, _, by simpa using h.symm, by simp [okStep]⟩
    · exact absurd h (by simp)

theorem step3_error_shape (B : Backends) (ctx ctx2 : ProcessingContext) (e : PyExc)
    (h : step_3_synthesize_content B ctx = Except.error (e, ctx2)) :
    ∃ m, e = PyExc.apiError m "google_genai" := by
  unfold step_3_synthesize_content at h
  split at h
  · exact absurd h (by simp)
  · cases hb : B.compress_content (pyOrEmpty ctx.transcript_summary)
        (pyOrEmpty ctx.comments_summary) ctx.config with
    | ok v =>
      unfold compressContent at h
      rw [hb] at h
      exact absurd h (by simp [Except.mapError])
    | error msg =>
      unfold compressContent at h
      rw [hb] at h
      simp only [Except.mapError, Except.error.injEq, Prod.mk.injEq] at h
      exact ⟨_, h.1.symm⟩

theorem step3_ok_of_compressOk (B : Backends) (ctx : ProcessingContext)
    (h : ∀ a b c, ∃ v, B.compress_content a b c = Except.ok v) :
    ∃ ctx2, step_3_synthesize_content B ctx = Except.ok ctx2 := by
  unfold step_3_synthesize_content
  split
  · exact ⟨_, rfl⟩
  · obtain ⟨v, hv⟩ := h (pyOrEmpty ctx.transcript_summary)
      (pyOrEmpty ctx.comments_summary) ctx.config
    unfold compressContent
    rw [hv]
    exact ⟨_, rfl⟩

theorem step4_disabled (B : Backends) (ctx : ProcessingContext)
    (h : ctx.config.enable_evaluation = false) :
    step_4_evaluate_content B ctx =
      Except.ok { ctx with critical_assessment := some emptyAssessment } := by
  simp [step_4_evaluate_content, h]

theorem step4_ok_frame (B : Backends) (ctx ctx2 : ProcessingContext)
    (h : step_4_evaluate_content B ctx = Except.ok ctx2) :
    ∃ a l, ctx2 =
      { ctx with
        critical_assessment := some a
        processing_steps := ctx.processing_steps ++ l } ∧
      ∀ s ∈ l, s.step_name = "evaluate_critical_thinking" := by
  unfold step_4_evaluate_content at h
  split at h
  · exact ⟨_, [], by simpa using h.symm, by simp⟩
  · split at h
    · exact ⟨_, _, by simpa using h.symm, by simp [okStep]⟩
    · exact absurd h (by simp)

theorem step4_error_shape (B : Backends) (ctx ctx2 : ProcessingContext) (e : PyExc)
    (h : step_4_evaluate_content B ctx = Except.error (e, ctx2)) :
    ∃ m, e = PyExc.apiError m "google_genai" := by
  unfold step_4_evaluate_content at h
  split at h
  · exact absurd h (by simp)
  · cases hb : B.evaluate_standards (pyOrEmpty ctx.transcript_summary)
        (pyOrEmpty ctx.comments_summary) ctx.config with
    | ok v =>
      unfold evaluateContent at h
      rw [hb] at h
      exact absurd h (by simp)
    | error msg =>
      unfold evaluateContent at h
      rw [hb] at h
      simp only [Except.error.injEq, Prod.mk.injEq] at h
      exact ⟨_, h.1.symm⟩

theorem step4_ok_of_evalOk (B : Backends) (ctx : ProcessingContext)
    (h : ∀ a b c, ∃ v, B.evaluate_standards a b c = Except.ok v) :
    ∃ ctx2, step_4_evaluate_content B ctx = Except.ok ctx2 := by
  unfold step_4_evaluate_content
  split
  · exact ⟨_, rfl⟩
  · obtain ⟨v, hv⟩ := h (pyOrEmpty ctx.transcript_summary)
      (pyOrEmpty ctx.comments_summary) ctx.config
    unfold evaluateContent
    rw [hv]
    exact ⟨_, rfl⟩

theorem mkAnalysisResult_ok (ctx : ProcessingContext) (cd : CommentsData)
    (a : CriticalThinkingAssessment)
    (hc : ctx.comments = some cd) (ha : ctx.critical_assessment = some a) :
    mkAnalysisResult ctx = Except.ok
      { video_metadata := ctx.video_metadata
        transcript := ctx.transcript
        comments := cd
        processing_steps := ctx.processing_steps
        transcript_summary := ctx.transcript_summary
        comments_summary := ctx.comments_summary
        compressed_summary := ctx.compressed_summary
        critical_assessment := a
        total_processing_time := 0 } := by
  simp [mkAnalysisResult, hc, ha]

theorem mkAnalysisResult_fields (ctx : ProcessingContext) (r : AnalysisResult)
    (h : mkAnalysisResult ctx = Except.ok r) :
    r.transcript = ctx.transcript ∧ r.processing_steps = ctx.processing_steps ∧
      ctx.comments = some r.comments ∧
      r.transcript_summary = ctx.transcript_summary ∧
      r.comments_summary = ctx.comments_summary := by
  unfold mkAnalysisResult at h
  split at h
  · rename_i cd a hc ha
    simp only [Except.ok.injEq] at h
    subst h
    exact ⟨rfl, rfl, hc, rfl, rfl⟩
  · exact absurd h (by simp)

/-- Combined frame of the extraction stage: it only writes `transcript`,
`comments` (always set to something) and appends its two step kinds; with
the transcript toggle off, `transcript` is untouched and only comment steps
are appended. -/
theorem step_1_frame (B : Backends) (ctx : ProcessingContext) :
    ∃ t cd l, step_1_extract_data B ctx =
      { ctx with
        transcript := t
        comments := some cd
        processing_steps := ctx.processing_steps ++ l } ∧
      (∀ s ∈ l, s.step_name = "extract_transcript" ∨ s.step_name = "extract_comments") ∧
      (ctx.config.enable_transcript = false →
        t = ctx.transcript ∧ ∀ s ∈ l, s.step_name = "extract_comments") := by
  by_cases hen : ctx.config.enable_transcript = false
  · obtain ⟨cd, l2, h2, hn2⟩ := step1Comments_frame B ctx
    refine ⟨ctx.transcript, cd, l2, ?_, ?_, ?_⟩
    · unfold step_1_extract_data
      rw [step1Transcript_disabled B ctx hen, h2]
    · exact fun s hs => Or.inr (hn2 s hs)
    · exact fun _ => ⟨rfl, hn2⟩
  · obtain ⟨t, l1, h1, hn1⟩ := step1Transcript_frame B ctx
    obtain ⟨cd, l2, h2, hn2⟩ := step1Comments_frame B (step1Transcript B ctx)
    refine ⟨t, cd, l1 ++ l2, ?_, ?_, ?_⟩
    · unfold step_1_extract_data
      rw [h2, h1]
      simp [List.append_assoc]
    · intro s hs
      rcases List.mem_append.mp hs with h3 | h3
      · exact Or.inl (hn1 s h3)
      · exact Or.inr (hn2 s h3)
    · exact fun hcontra => absurd hcontra hen

/-- Combined frame of the processing stage: it only writes the two summary
fields and appends its two step kinds. -/
theorem step_2_frame (B : Backends) (ctx : ProcessingContext) (instr : String) :
    ∃ ts cs l, step_2_process_content B ctx instr =
      { ctx with
        transcript_summary := ts
        comments_summary := cs
        processing_steps := ctx.processing_steps ++ l } ∧
      ∀ s ∈ l, s.step_name = "process_transcript" ∨ s.step_name = "process_comments" := by
  obtain ⟨ts, l1, h1, hn1⟩ := step2Transcript_frame B ctx instr
  obtain ⟨cs, l2, h2, hn2⟩ := step2Comments_frame B (step2Transcript B ctx instr)
  refine ⟨ts, cs, l1 ++ l2, ?_, ?_⟩
  · unfold step_2_process_content
    rw [h2, h1]
    simp [List.append_assoc]
  · intro s hs
    rcases List.mem_append.mp hs with h3 | h3
    · exact Or.inl (hn1 s h3)
    · exact Or.inr (hn2 s h3)

/-! ## Claims about the orchestrator -/

/-- C10: with `enable_transcript` off, a successful run returns a result
whose `transcript` field is `None` (the extraction stage never assigns it)
and whose step records contain no transcript-extraction entry. -/
theorem analyze_video_transcript_disabled :
    ∀ (B : Backends) (url instr : String) (cfg : PipelineConfig) (r : AnalysisResult),
      cfg.enable_transcript = false →
      analyze_video B url (some cfg) (some instr) = Except.ok r →
      r.transcript = none ∧
        ∀ s ∈ r.processing_steps, ¬ (s.step_name = "extract_transcript") := by
  intro B url instr cfg r hen hrun
  unfold analyze_video at hrun
  simp only [Option.getD_some] at hrun
  cases hinner : analyzeVideoInner B url cfg instr with
  | error e => rw [hinner] at hrun; exact absurd hrun (by simp)
  | ok r2 =>
    rw [hinner] at hrun
    simp only [Except.ok.injEq] at hrun
    subst hrun
    unfold analyzeVideoInner at hinner
    split at hinner
    · exact absurd hinner (by simp)
    · split at hinner
      · exact absurd hinner (by simp)
      · rename_i md heqmd
        obtain ⟨t1, cd1, l1, hs1, hn1, hoff⟩ :=
          step_1_frame B { video_metadata := md, config := cfg }
        obtain ⟨ht1, hl1⟩ := hoff hen
        rw [hs1] at hinner
        obtain ⟨ts2, cs2, l2, hs2, hn2⟩ := step_2_frame B _ instr
        rw [hs2] at hinner
        split at hinner
        · exact absurd hinner (by simp)
        · rename_i ctx3 heq3
          split at hinner
          · exact absurd hinner (by simp)
          · rename_i ctx4 heq4
            obtain ⟨cp3, l3, hctx3, hn3⟩ := step3_ok_frame B _ ctx3 heq3
            obtain ⟨a4, l4, hctx4, hn4⟩ := step4_ok_frame B ctx3 ctx4 heq4
            subst hctx4
            subst hctx3
            obtain ⟨hrt, hrs, _, _, _⟩ := mkAnalysisResult_fields _ r2 hinner
            constructor
            · rw [hrt, ht1]
            · intro s hs
              rw [hrs] at hs
              simp only [List.mem_append, List.nil_append] at hs
              rcases hs with (((hs1m | hs2m) | hs3m) | hs4m)
              · rw [hl1 s hs1m]; decide
              · rcases hn2 s hs2m with h | h <;> rw [h] <;> decide
              · rw [hn3 s hs3m]; decide
              · rw [hn4 s hs4m]; decide

/-- After extraction and processing, the comments field is always set (every
branch of the extraction stage writes it). -/
theorem steps12_comments_some (B : Backends) (ctx0 : ProcessingContext) (instr : String) :
    ∃ cd, (step_2_process_content B (step_1_extract_data B ctx0) instr).comments = some cd := by
  obtain ⟨t1, cd1, l1, hs1, _, _⟩ := step_1_frame B ctx0
  obtain ⟨ts2, cs2, l2, hs2, _⟩ := step_2_frame B (step_1_extract_data B ctx0) instr
  refine ⟨cd1, ?_⟩
  rw [hs2, hs1]

/-- C5 (toggle independence): for every toggle combination, the pipeline
raises no `None`-field or missing-required-field error — when the
collaborators succeed the run completes with a result, and whatever error a
run does raise is a wrapped backend or URL-validation failure, never the
missing-`comments`/missing-`critical_assessment` validation error and never
an attribute access on `None`. -/
theorem analyze_video_toggle_independence :
    ∀ (cfg : PipelineConfig) (B : Backends) (url instr : String),
      ((∃ vid, extract_video_id url = Except.ok vid) →
        (∀ a, ∃ v, B.fetch_video_metadata a = Except.ok v) →
        (∀ a b c, ∃ v, B.compress_content a b c = Except.ok v) →
        (∀ a b c, ∃ v, B.evaluate_standards a b c = Except.ok v) →
        ∃ r, analyze_video B url (some cfg) (some instr) = Except.ok r) ∧
      (∀ e, analyzeVideoInner B url cfg instr = Except.error e →
        ¬ (e = PyExc.pydanticError) ∧ ¬ (e = PyExc.attributeError)) := by
  intro cfg B url instr
  constructor
  · intro hext hmd hcomp heval
    obtain ⟨vid, hvid⟩ := hext
    obtain ⟨md, hmd2⟩ := hmd vid
    unfold analyze_video
    simp only [Option.getD_some]
    unfold analyzeVideoInner
    simp only [hvid, hmd2]
    obtain ⟨ctx3, h3⟩ := step3_ok_of_compressOk B (step_2_process_content B
      (step_1_extract_data B { video_metadata := md, config := cfg }) instr) hcomp
    obtain ⟨cd, hcd⟩ := steps12_comments_some B
      { video_metadata := md, config := cfg } instr
    simp only [h3]
    obtain ⟨ctx4, h4⟩ := step4_ok_of_evalOk B ctx3 heval
    simp only [h4]
    obtain ⟨cp3, l3, hctx3, _⟩ := step3_ok_frame B _ ctx3 h3
    obtain ⟨a4, l4, hctx4, _⟩ := step4_ok_frame B ctx3 ctx4 h4
    have hc4 : ctx4.comments = some cd := by
      rw [hctx4, hctx3]
      exact hcd
    have ha4 : ctx4.critical_assessment = some a4 := by rw [hctx4]
    rw [mkAnalysisResult_ok ctx4 cd a4 hc4 ha4]
    exact ⟨_, rfl⟩
  · intro e herr
    unfold analyzeVideoInner at herr
    split at herr
    · rename_i e2 heqext
      have := extract_video_id_error_shape heqext
      subst this
      simp only [Except.error.injEq] at herr
      subst herr
      exact ⟨by simp, by simp⟩
    · split at herr
      · simp only [Except.error.injEq] at herr
        subst herr
        exact ⟨by simp, by simp⟩
      · rename_i md heqmd
        split at herr
        · rename_i ep heq3
          obtain ⟨m, hm⟩ := step3_error_shape B _ ep.2 ep.1 (by rw [← heq3])
          simp only [Except.error.injEq] at herr
          subst herr
          rw [hm]
          exact ⟨by simp, by simp⟩
        · rename_i ctx3 heq3
          split at herr
          · rename_i ep heq4
            obtain ⟨m, hm⟩ := step4_error_shape B ctx3 ep.2 ep.1 (by rw [← heq4])
            simp only [Except.error.injEq] at herr
            subst herr
            rw [hm]
            exact ⟨by simp, by simp⟩
          · rename_i ctx4 heq4
            obtain ⟨cd, hcd⟩ := steps12_comments_some B
              { video_metadata := md, config := cfg } instr
            obtain ⟨cp3, l3, hctx3, _⟩ := step3_ok_frame B _ ctx3 heq3
            obtain ⟨a4, l4, hctx4, _⟩ := step4_ok_frame B ctx3 ctx4 heq4
            have hc4 : ctx4.comments = some cd := by
              rw [hctx4, hctx3]
              exact hcd
            have ha4 : ctx4.critical_assessment = some a4 := by rw [hctx4]
            rw [mkAnalysisResult_ok ctx4 cd a4 hc4 ha4] at herr
            exact absurd herr (by simp)

/-- Witness for toggle independence: a concrete run with every toggle off
completes. -/
theorem analyze_video_toggle_independence_witness :
    ∃ r, analyze_video
      { fetch_video_metadata := fun v => Except.ok ⟨v, "t", "a", "c", "d", "u"⟩
        fetch_transcript := fun _ => Except.error "boom"
        fetch_comments := fun _ _ _ => Except.error "boom"
        generate_transcript_summary := fun _ _ _ => Except.error "boom"
        generate_comments_summary := fun _ _ => Except.error "boom"
        compress_content := fun _ _ _ => Except.ok "s"
        evaluate_standards := fun _ _ _ => Except.ok [] }
      "/AAAAAAAAAAA"
      (some { enable_transcript := false
              enable_comments := false
              enable_transcript_processing := false
              enable_comments_processing := false
              enable_synthesis := false
              enable_evaluation := false })
      (some "i") = Except.ok r :=
  (analyze_video_toggle_independence
    { enable_transcript := false
      enable_comments := false
      enable_transcript_processing := false
      enable_comments_processing := false
      enable_synthesis := false
      enable_evaluation := false }
    { fetch_video_metadata := fun v => Except.ok ⟨v, "t", "a", "c", "d", "u"⟩
      fetch_transcript := fun _ => Except.error "boom"
      fetch_comments := fun _ _ _ => Except.error "boom"
      generate_transcript_summary := fun _ _ _ => Except.error "boom"
      generate_comments_summary := fun _ _ => Except.error "boom"
      compress_content := fun _ _ _ => Except.ok "s"
      evaluate_standards := fun _ _ _ => Except.ok [] }
    "/AAAAAAAAAAA" "i").1
    ⟨"AAAAAAAAAAA", rfl⟩ (fun _ => ⟨_, rfl⟩) (fun _ _ _ => ⟨_, rfl⟩) (fun _ _ _ => ⟨_, rfl⟩)

/-- Master shape of a successful run: when the two fatal-stage backends
succeed, the run returns a result whose content fields equal those of the
context after extraction and processing, with only synthesis/evaluation
step records appended. -/
theorem run_ok_shape (B : Backends) (cfg : PipelineConfig) (url instr vid : String)
    (md : VideoMetadata)
    (hvid : extract_video_id url = Except.ok vid)
    (hmd : B.fetch_video_metadata vid = Except.ok md)
    (hcomp : ∀ a b c, ∃ v, B.compress_content a b c = Except.ok v)
    (heval : ∀ a b c, ∃ v, B.evaluate_standards a b c = Except.ok v) :
    ∃ r l, analyze_video B url (some cfg) (some instr) = Except.ok r ∧
      r.transcript = (step_2_process_content B (step_1_extract_data B
        { video_metadata := md, config := cfg }) instr).transcript ∧
      r.transcript_summary = (step_2_process_content B (step_1_extract_data B
        { video_metadata := md, config := cfg }) instr).transcript_summary ∧
      r.comments_summary = (step_2_process_content B (step_1_extract_data B
        { video_metadata := md, config := cfg }) instr).comments_summary ∧
      (step_2_process_content B (step_1_extract_data B
        { video_metadata := md, config := cfg }) instr).comments = some r.comments ∧
      r.processing_steps = (step_2_process_content B (step_1_extract_data B
        { video_metadata := md, config := cfg }) instr).processing_steps ++ l := by
  obtain ⟨ctx3, h3⟩ := step3_ok_of_compressOk B (step_2_process_content B
    (step_1_extract_data B { video_metadata := md, config := cfg }) instr) hcomp
  obtain ⟨ctx4, h4⟩ := step4_ok_of_evalOk B ctx3 heval
  obtain ⟨cd, hcd⟩ := steps12_comments_some B
    { video_metadata := md, config := cfg } instr
  obtain ⟨cp3, l3, hctx3, _⟩ := step3_ok_frame B _ ctx3 h3
  obtain ⟨a4, l4, hctx4, _⟩ := step4_ok_frame B ctx3 ctx4 h4
  have hc4 : ctx4.comments = some cd := by
    rw [hctx4, hctx3]
    exact hcd
  have ha4 : ctx4.critical_assessment = some a4 := by rw [hctx4]
  have hrun : analyze_video B url (some cfg) (some instr) = Except.ok
      { video_metadata := ctx4.video_metadata
        transcript := ctx4.transcript
        comments := cd
        processing_steps := ctx4.processing_steps
        transcript_summary := ctx4.transcript_summary
        comments_summary := ctx4.comments_summary
        compressed_summary := ctx4.compressed_summary
        critical_assessment := a4
        total_processing_time := 0 } := by
    unfold analyze_video
    simp only [Option.getD_some]
    unfold analyzeVideoInner
    simp only [hvid, hmd, h3, h4]
    rw [mkAnalysisResult_ok ctx4 cd a4 hc4 ha4]
  refine ⟨_, l3 ++ l4, hrun, ?_, ?_, ?_, ?_, ?_⟩
  · show ctx4.transcript = _
    rw [hctx4, hctx3]
  · show ctx4.transcript_summary = _
    rw [hctx4, hctx3]
  · show ctx4.comments_summary = _
    rw [hctx4, hctx3]
  · show _ = some cd
    exact hcd
  · show ctx4.processing_steps = _
    rw [hctx4, hctx3]
    simp [List.append_assoc]

/-- With synthesis enabled and a failing compression backend, the synthesis
stage re-raises. -/
theorem step3_err_any (B : Backends) (ctx : ProcessingContext)
    (hen : ctx.config.enable_synthesis = true)
    (h : ∀ a b c, ∃ m, B.compress_content a b c = Except.error m) :
    ∃ ec, step_3_synthesize_content B ctx = Except.error ec := by
  unfold step_3_synthesize_content
  rw [if_neg (by simp [hen])]
  obtain ⟨m, hm⟩ := h (pyOrEmpty ctx.transcript_summary)
    (pyOrEmpty ctx.comments_summary) ctx.config
  unfold compressContent
  rw [hm]
  exact ⟨_, rfl⟩

/-- With evaluation enabled and a failing evaluation backend, the evaluation
stage re-raises. -/
theorem step4_err_any (B : Backends) (ctx : ProcessingContext)
    (hen : ctx.config.enable_evaluation = true)
    (h : ∀ a b c, ∃ m, B.evaluate_standards a b c = Except.error m) :
    ∃ ec, step_4_evaluate_content B ctx = Except.error ec := by
  unfold step_4_evaluate_content
  rw [if_neg (by simp [hen])]
  obtain ⟨m, hm⟩ := h (pyOrEmpty ctx.transcript_summary)
    (pyOrEmpty ctx.comments_summary) ctx.config
  unfold evaluateContent
  rw [hm]
  exact ⟨_, rfl⟩

/-- The synthesis stage records a failed step before re-raising. -/
theorem step3_error_records (B : Backends) (ctx ctx2 : ProcessingContext) (e : PyExc)
    (h : step_3_synthesize_content B ctx = Except.error (e, ctx2)) :
    ∃ m, failStep "synthesize_content" "Transcript + Comments summaries" m
      ∈ ctx2.processing_steps := by
  unfold step_3_synthesize_content at h
  split at h
  · exact absurd h (by simp)
  · cases hb : B.compress_content (pyOrEmpty ctx.transcript_summary)
        (pyOrEmpty ctx.comments_summary) ctx.config with
    | ok v =>
      unfold compressContent at h
      rw [hb] at h
      exact absurd h (by simp [Except.mapError])
    | error msg =>
      unfold compressContent at h
      rw [hb] at h
      simp only [Except.mapError, Except.error.injEq, Prod.mk.injEq] at h
      refine ⟨(PyExc.apiError ("Content compression failed: " ++ msg) "google_genai").msg, ?_⟩
      rw [← h.2]
      simp

/-- The evaluation stage records a failed step before re-raising. -/
theorem step4_error_records (B : Backends) (ctx ctx2 : ProcessingContext) (e : PyExc)
    (h : step_4_evaluate_content B ctx = Except.error (e, ctx2)) :
    ∃ m, failStep "evaluate_critical_thinking" "Transcript + Comments summaries" m
      ∈ ctx2.processing_steps := by
  unfold step_4_evaluate_content at h
  split at h
  · exact absurd h (by simp)
  · cases hb : B.evaluate_standards (pyOrEmpty ctx.transcript_summary)
        (pyOrEmpty ctx.comments_summary) ctx.config with
    | ok v =>
      unfold evaluateContent at h
      rw [hb] at h
      exact absurd h (by simp)
    | error msg =>
      unfold evaluateContent at h
      rw [hb] at h
      simp only [Except.error.injEq, Prod.mk.injEq] at h
      refine ⟨(PyExc.apiError ("Critical thinking evaluation failed: " ++ msg) "google_genai").msg, ?_⟩
      rw [← h.2]
      simp

theorem step_1_config (B : Backends) (ctx : ProcessingContext) :
    (step_1_extract_data B ctx).config = ctx.config := by
  obtain ⟨t, cd, l, h, _, _⟩ := step_1_frame B ctx
  rw [h]

theorem step_2_config (B : Backends) (ctx : ProcessingContext) (instr : String) :
    (step_2_process_content B ctx instr).config = ctx.config := by
  obtain ⟨ts, cs, l, h, _⟩ := step_2_frame B ctx instr
  rw [h]

/-- C1 (fatal vs non-fatal isolation).  Non-fatal conjuncts: a failure of
the transcript fetch, comments fetch, transcript processing, or comments
processing (each with its toggle on, and the fatal backends healthy) still
yields a completed run whose result records a failed step for that sub-step
and carries the safe default (unavailable transcript, empty comments, unset
transcript summary, empty comments summary).  Fatal conjuncts: a failure of
the synthesis or evaluation backend (with its toggle on) aborts the run
with `PipelineError` and no result, the failed step having been recorded on
the discarded context. -/
theorem fatal_vs_nonfatal_isolation :
    (∀ (B : Backends) (cfg : PipelineConfig) (url instr vid : String)
      (md : VideoMetadata) (em : String),
      extract_video_id url = Except.ok vid →
      B.fetch_video_metadata vid = Except.ok md →
      (∀ a b c, ∃ v, B.compress_content a b c = Except.ok v) →
      (∀ a b c, ∃ v, B.evaluate_standards a b c = Except.ok v) →
      cfg.enable_transcript = true →
      B.fetch_transcript md.video_id = Except.error em →
      ∃ r, analyze_video B url (some cfg) (some instr) = Except.ok r ∧
        r.transcript = some unavailableTranscript ∧
        failStep "extract_transcript" md.video_id em ∈ r.processing_steps) ∧
    (∀ (B : Backends) (cfg : PipelineConfig) (url instr vid : String)
      (md : VideoMetadata) (em : String),
      extract_video_id url = Except.ok vid →
      B.fetch_video_metadata vid = Except.ok md →
      (∀ a b c, ∃ v, B.compress_content a b c = Except.ok v) →
      (∀ a b c, ∃ v, B.evaluate_standards a b c = Except.ok v) →
      cfg.enable_comments = true →
      B.fetch_comments md.video_id cfg.max_comments cfg.max_total_word_length =
        Except.error em →
      ∃ r, analyze_video B url (some cfg) (some instr) = Except.ok r ∧
        r.comments = emptyCommentsData ∧
        failStep "extract_comments" md.video_id em ∈ r.processing_steps) ∧
    (∀ (B : Backends) (cfg : PipelineConfig) (url instr vid : String)
      (md : VideoMetadata) (t : TranscriptData) (em : String),
      extract_video_id url = Except.ok vid →
      B.fetch_video_metadata vid = Except.ok md →
      (∀ a b c, ∃ v, B.compress_content a b c = Except.ok v) →
      (∀ a b c, ∃ v, B.evaluate_standards a b c = Except.ok v) →
      cfg.enable_transcript = true →
      B.fetch_transcript md.video_id = Except.ok t →
      t.available = true →
      cfg.enable_transcript_processing = true →
      B.generate_transcript_summary t instr cfg = Except.error em →
      ∃ r, analyze_video B url (some cfg) (some instr) = Except.ok r ∧
        r.transcript_summary = none ∧
        failStep "process_transcript"
          ("Transcript (" ++ toString t.word_count ++ " words)") em ∈ r.processing_steps) ∧
    (∀ (B : Backends) (cfg : PipelineConfig) (url instr vid : String)
      (md : VideoMetadata) (c : CommentsData) (em : String),
      extract_video_id url = Except.ok vid →
      B.fetch_video_metadata vid = Except.ok md →
      (∀ a b c2, ∃ v, B.compress_content a b c2 = Except.ok v) →
      (∀ a b c2, ∃ v, B.evaluate_standards a b c2 = Except.ok v) →
      cfg.enable_comments = true →
      B.fetch_comments md.video_id cfg.max_comments cfg.max_total_word_length =
        Except.ok c →
      0 < c.total_count →
      cfg.enable_comments_processing = true →
      B.generate_comments_summary c cfg = Except.error em →
      ∃ r, analyze_video B url (some cfg) (some instr) = Except.ok r ∧
        r.comments_summary = some "" ∧
        failStep "process_comments"
          ("Comments (" ++ toString c.total_count ++ " items)") em ∈ r.processing_steps) ∧
    (∀ (B : Backends) (cfg : PipelineConfig) (url instr vid : String) (md : VideoMetadata),
      extract_video_id url = Except.ok vid →
      B.fetch_video_metadata vid = Except.ok md →
      cfg.enable_synthesis = true →
      (∀ a b c, ∃ m, B.compress_content a b c = Except.error m) →
      ∃ msg, analyze_video B url (some cfg) (some instr) =
        Except.error (PyExc.pipelineError msg)) ∧
    (∀ (B : Backends) (ctx ctx2 : ProcessingContext) (e : PyExc),
      step_3_synthesize_content B ctx = Except.error (e, ctx2) →
      ∃ m, failStep "synthesize_content" "Transcript + Comments summaries" m
        ∈ ctx2.processing_steps) ∧
    (∀ (B : Backends) (cfg : PipelineConfig) (url instr vid : String) (md : VideoMetadata),
      extract_video_id url = Except.ok vid →
      B.fetch_video_metadata vid = Except.ok md →
      (∀ a b c, ∃ v, B.compress_content a b c = Except.ok v) →
      cfg.enable_evaluation = true →
      (∀ a b c, ∃ m, B.evaluate_standards a b c = Except.error m) →
      ∃ msg, analyze_video B url (some cfg) (some instr) =
        Except.error (PyExc.pipelineError msg)) ∧
    (∀ (B : Backends) (ctx ctx2 : ProcessingContext) (e : PyExc),
      step_4_evaluate_content B ctx = Except.error (e, ctx2) →
      ∃ m, failStep "evaluate_critical_thinking" "Transcript + Comments summaries" m
        ∈ ctx2.processing_steps) := by
  refine ⟨?_, ?_, ?_, ?_, ?_, step3_error_records, ?_, step4_error_records⟩
  · -- transcript fetch failure is isolated
    intro B cfg url instr vid md em hvid hmd hcomp heval hen hft
    obtain ⟨r, l, hrun, hrt, _, _, _, hrsteps⟩ :=
      run_ok_shape B cfg url instr vid md hvid hmd hcomp heval
    have h1t := step1Transcript_fail B { video_metadata := md, config := cfg } em hen hft
    obtain ⟨cd1, l1c, h1c, _⟩ :=
      step1Comments_frame B (step1Transcript B { video_metadata := md, config := cfg })
    obtain ⟨ts2, cs2, l2, hs2, _⟩ :=
      step_2_frame B (step_1_extract_data B { video_metadata := md, config := cfg }) instr
    refine ⟨r, hrun, ?_, ?_⟩
    · rw [hrt, hs2]
      show (step_1_extract_data B { video_metadata := md, config := cfg }).transcript = _
      unfold step_1_extract_data
      rw [h1c, h1t]
    · rw [hrsteps, hs2]
      show failStep "extract_transcript" md.video_id em ∈
        ((step_1_extract_data B { video_metadata := md, config := cfg }).processing_steps
          ++ l2) ++ l
      unfold step_1_extract_data
      rw [h1c, h1t]
      simp
  · -- comments fetch failure is isolated
    intro B cfg url instr vid md em hvid hmd hcomp heval hen hfc
    obtain ⟨r, l, hrun, _, _, _, hrc, hrsteps⟩ :=
      run_ok_shape B cfg url instr vid md hvid hmd hcomp heval
    obtain ⟨t1, l1t, h1t, _⟩ := step1Transcript_frame B { video_metadata := md, config := cfg }
    have h1c := step1Comments_fail B
      (step1Transcript B { video_metadata := md, config := cfg }) em (by rw [h1t]; exact hen)
      (by rw [h1t]; exact hfc)
    obtain ⟨ts2, cs2, l2, hs2, _⟩ :=
      step_2_frame B (step_1_extract_data B { video_metadata := md, config := cfg }) instr
    have hcom : (step_2_process_content B (step_1_extract_data B
        { video_metadata := md, config := cfg }) instr).comments = some emptyCommentsData := by
      rw [hs2]
      show (step_1_extract_data B { video_metadata := md, config := cfg }).comments = _
      unfold step_1_extract_data
      rw [h1c]
    refine ⟨r, hrun, ?_, ?_⟩
    · rw [hcom] at hrc
      simp only [Option.some.injEq] at hrc
      exact hrc.symm
    · rw [hrsteps, hs2]
      show failStep "extract_comments" md.video_id em ∈
        ((step_1_extract_data B { video_metadata := md, config := cfg }).processing_steps
          ++ l2) ++ l
      unfold step_1_extract_data
      rw [h1c, h1t]
      simp
  · -- transcript processing failure is isolated
    intro B cfg url instr vid md t em hvid hmd hcomp heval hen hft hav hentp hgen
    obtain ⟨r, l, hrun, _, hrts, _, _, hrsteps⟩ :=
      run_ok_shape B cfg url instr vid md hvid hmd hcomp heval
    have h1t := step1Transcript_ok B { video_metadata := md, config := cfg } t hen hft
    obtain ⟨cd1, l1c, h1c, _⟩ :=
      step1Comments_frame B (step1Transcript B { video_metadata := md, config := cfg })
    have hs1 : step_1_extract_data B { video_metadata := md, config := cfg } =
        { video_metadata := md, config := cfg, transcript := some t,
          comments := some cd1,
          processing_steps :=
            ([] ++ [okStep "extract_transcript" md.video_id
              ("Transcript available: " ++ pyBool t.available ++ ", Words: " ++
                toString t.word_count)]) ++ l1c } := by
      unfold step_1_extract_data
      rw [h1c, h1t]
    have h2t := step2Transcript_fail B
      (step_1_extract_data B { video_metadata := md, config := cfg }) instr t em
      (by rw [hs1]; exact hentp) (by rw [hs1]) hav
      (by rw [hs1]; exact hgen)
    obtain ⟨cs2, l2c, h2c, _⟩ := step2Comments_frame B
      (step2Transcript B (step_1_extract_data B { video_metadata := md, config := cfg }) instr)
    have hs2 : step_2_process_content B
        (step_1_extract_data B { video_metadata := md, config := cfg }) instr =
        { (step_1_extract_data B { video_metadata := md, config := cfg }) with
          comments_summary := cs2
          processing_steps :=
            ((step_1_extract_data B
              { video_metadata := md, config := cfg }).processing_steps ++
              [failStep "process_transcript"
                ("Transcript (" ++ toString t.word_count ++ " words)") em]) ++ l2c } := by
      unfold step_2_process_content
      rw [h2c, h2t]
    refine ⟨r, hrun, ?_, ?_⟩
    · rw [hrts, hs2]
      show (step_1_extract_data B { video_metadata := md, config := cfg }).transcript_summary
        = none
      rw [hs1]
    · rw [hrsteps, hs2]
      simp
  · -- comments processing failure is isolated
    intro B cfg url instr vid md c em hvid hmd hcomp heval hen hfc hpos hencp hgen
    obtain ⟨r, l, hrun, _, _, hrcs, _, hrsteps⟩ :=
      run_ok_shape B cfg url instr vid md hvid hmd hcomp heval
    obtain ⟨t1, l1t, h1t, _⟩ := step1Transcript_frame B { video_metadata := md, config := cfg }
    have h1c := step1Comments_ok B
      (step1Transcript B { video_metadata := md, config := cfg }) c (by rw [h1t]; exact hen)
      (by rw [h1t]; exact hfc)
    have hs1 : step_1_extract_data B { video_metadata := md, config := cfg } =
        { video_metadata := md, config := cfg, transcript := t1,
          comments := some c,
          processing_steps :=
            ([] ++ l1t) ++ [okStep "extract_comments" md.video_id
              ("Comments: " ++ toString c.total_count ++ ", Words: " ++
                toString c.total_word_count)] } := by
      unfold step_1_extract_data
      rw [h1c, h1t]
    obtain ⟨ts2, l2t, h2t, _⟩ := step2Transcript_frame B
      (step_1_extract_data B { video_metadata := md, config := cfg }) instr
    have h2c := step2Comments_fail B
      (step2Transcript B (step_1_extract_data B { video_metadata := md, config := cfg }) instr)
      c em
      (by rw [h2t, hs1]; exact hencp) (by rw [h2t, hs1]) hpos
      (by rw [h2t, hs1]; exact hgen)
    have hs2 : step_2_process_content B
        (step_1_extract_data B { video_metadata := md, config := cfg }) instr =
        { (step_1_extract_data B { video_metadata := md, config := cfg }) with
          transcript_summary := ts2
          comments_summary := some ""
          processing_steps :=
            ((step_1_extract_data B
              { video_metadata := md, config := cfg }).processing_steps ++ l2t) ++
              [failStep "process_comments"
                ("Comments (" ++ toString c.total_count ++ " items)") em] } := by
      unfold step_2_process_content
      rw [h2c, h2t]
    refine ⟨r, hrun, ?_, ?_⟩
    · rw [hrcs, hs2]
    · rw [hrsteps, hs2]
      simp
  · -- synthesis backend failure is fatal
    intro B cfg url instr vid md hvid hmd hen hfail
    unfold analyze_video
    simp only [Option.getD_some]
    unfold analyzeVideoInner
    simp only [hvid, hmd]
    obtain ⟨ec, hec⟩ := step3_err_any B (step_2_process_content B
      (step_1_extract_data B { video_metadata := md, config := cfg }) instr)
      (by rw [step_2_config, step_1_config]; exact hen) hfail
    simp only [hec]
    exact ⟨_, rfl⟩
  · -- evaluation backend failure is fatal
    intro B cfg url instr vid md hvid hmd hcomp hen hfail
    unfold analyze_video
    simp only [Option.getD_some]
    unfold analyzeVideoInner
    simp only [hvid, hmd]
    obtain ⟨ctx3, h3⟩ := step3_ok_of_compressOk B (step_2_process_content B
      (step_1_extract_data B { video_metadata := md, config := cfg }) instr) hcomp
    obtain ⟨cp3, l3, hctx3, _⟩ := step3_ok_frame B _ ctx3 h3
    obtain ⟨ec, hec⟩ := step4_err_any B ctx3
      (by rw [hctx3]
          show (step_2_process_content B (step_1_extract_data B
            { video_metadata := md, config := cfg }) instr).config.enable_evaluation = true
          rw [step_2_config, step_1_config]
          exact hen) hfail
    simp only [h3, hec]
    exact ⟨_, rfl⟩

/-- Witness for fatal-vs-non-fatal isolation at concrete backends: a failing
transcript fetch still completes the run; a failing synthesis backend
aborts it with `PipelineError`. -/
theorem fatal_vs_nonfatal_isolation_witness :
    (∃ r, analyze_video
        { fetch_video_metadata := fun v => Except.ok ⟨v, "t", "a", "c", "d", "u"⟩
          fetch_transcript := fun _ => Except.error "boom"
          fetch_comments := fun _ _ _ => Except.ok emptyCommentsData
          generate_transcript_summary := fun _ _ _ => Except.ok []
          generate_comments_summary := fun _ _ => Except.ok []
          compress_content := fun _ _ _ => Except.ok "s"
          evaluate_standards := fun _ _ _ => Except.ok [] }
        "/AAAAAAAAAAA" (some {}) (some "i") = Except.ok r ∧
      r.transcript = some unavailableTranscript ∧
      failStep "extract_transcript" "AAAAAAAAAAA" "boom" ∈ r.processing_steps) ∧
    (∃ msg, analyze_video
        { fetch_video_metadata := fun v => Except.ok ⟨v, "t", "a", "c", "d", "u"⟩
          fetch_transcript := fun _ => Except.error "boom"
          fetch_comments := fun _ _ _ => Except.ok emptyCommentsData
          generate_transcript_summary := fun _ _ _ => Except.ok []
          generate_comments_summary := fun _ _ => Except.ok []
          compress_content := fun _ _ _ => Except.error "boom"
          evaluate_standards := fun _ _ _ => Except.ok [] }
        "/AAAAAAAAAAA" (some {}) (some "i") =
          Except.error (PyExc.pipelineError msg)) :=
  ⟨fatal_vs_nonfatal_isolation.1
      { fetch_video_metadata := fun v => Except.ok ⟨v, "t", "a", "c", "d", "u"⟩
        fetch_transcript := fun _ => Except.error "boom"
        fetch_comments := fun _ _ _ => Except.ok emptyCommentsData
        generate_transcript_summary := fun _ _ _ => Except.ok []
        generate_comments_summary := fun _ _ => Except.ok []
        compress_content := fun _ _ _ => Except.ok "s"
        evaluate_standards := fun _ _ _ => Except.ok [] }
      {} "/AAAAAAAAAAA" "i" "AAAAAAAAAAA" ⟨"AAAAAAAAAAA", "t", "a", "c", "d", "u"⟩ "boom"
      rfl rfl (fun _ _ _ => ⟨"s", rfl⟩) (fun _ _ _ => ⟨[], rfl⟩) rfl rfl,
    fatal_vs_nonfatal_isolation.2.2.2.2.1
      { fetch_video_metadata := fun v => Except.ok ⟨v, "t", "a", "c", "d", "u"⟩
        fetch_transcript := fun _ => Except.error "boom"
        fetch_comments := fun _ _ _ => Except.ok emptyCommentsData
        generate_transcript_summary := fun _ _ _ => Except.ok []
        generate_comments_summary := fun _ _ => Except.ok []
        compress_content := fun _ _ _ => Except.error "boom"
        evaluate_standards := fun _ _ _ => Except.ok [] }
      {} "/AAAAAAAAAAA" "i" "AAAAAAAAAAA" ⟨"AAAAAAAAAAA", "t", "a", "c", "d", "u"⟩
      rfl rfl rfl (fun _ _ _ => ⟨"boom", rfl⟩)⟩

/-- C6: with synthesis disabled, the synthesis stage sets
`compressed_summary` by the priority order comments summary (if truthy) >
transcript summary (if truthy) > the fixed fallback message, records no
step, changes nothing else, and never invokes the synthesis backend (the
outcome is the same for every backend). -/
theorem step3_synthesis_disabled_fallback :
    ∀ (B B2 : Backends) (ctx : ProcessingContext),
      ctx.config.enable_synthesis = false →
      ∃ ctx2, step_3_synthesize_content B ctx = Except.ok ctx2 ∧
        step_3_synthesize_content B2 ctx = Except.ok ctx2 ∧
        ctx2.processing_steps = ctx.processing_steps ∧
        ctx2 = { ctx with compressed_summary := ctx2.compressed_summary } ∧
        (∀ s, ctx.comments_summary = some s → ¬ (s = "") →
          ctx2.compressed_summary = some s) ∧
        (pyTruthy ctx.comments_summary = false →
          ∀ s, ctx.transcript_summary = some s → ¬ (s = "") →
          ctx2.compressed_summary = some s) ∧
        (pyTruthy ctx.comments_summary = false → pyTruthy ctx.transcript_summary = false →
          ctx2.compressed_summary = some "Analysis completed without content synthesis.") := by
  intro B B2 ctx hoff
  refine ⟨{ ctx with compressed_summary := some (bestAvailableSummary ctx) },
    step3_disabled B ctx hoff, step3_disabled B2 ctx hoff, rfl, rfl, ?_, ?_, ?_⟩
  · intro s hcs hne
    simp [bestAvailableSummary, pyTruthy, pyOrEmpty, hcs, hne]
  · intro hcf s hts hne
    simp only [bestAvailableSummary, hcf]
    simp [pyTruthy, pyOrEmpty, hts, hne]
  · intro hcf htf
    simp only [bestAvailableSummary, hcf, htf]
    simp

/-- Witness for the synthesis-disabled fallback on a concrete context. -/
theorem step3_synthesis_disabled_fallback_witness :
    ∃ ctx2, step_3_synthesize_content
        { fetch_video_metadata := fun v => Except.ok ⟨v, "t", "a", "c", "d", "u"⟩
          fetch_transcript := fun _ => Except.error "boom"
          fetch_comments := fun _ _ _ => Except.error "boom"
          generate_transcript_summary := fun _ _ _ => Except.error "boom"
          generate_comments_summary := fun _ _ => Except.error "boom"
          compress_content := fun _ _ _ => Except.error "boom"
          evaluate_standards := fun _ _ _ => Except.error "boom" }
        { video_metadata := ⟨"v", "t", "a", "c", "d", "u"⟩
          comments_summary := some "csum"
          config := { enable_synthesis := false } } = Except.ok ctx2 ∧
      ctx2.compressed_summary = some "csum" := by
  obtain ⟨ctx2, h1, _, _, _, h5, _, _⟩ := step3_synthesis_disabled_fallback
    { fetch_video_metadata := fun v => Except.ok ⟨v, "t", "a", "c", "d", "u"⟩
      fetch_transcript := fun _ => Except.error "boom"
      fetch_comments := fun _ _ _ => Except.error "boom"
      generate_transcript_summary := fun _ _ _ => Except.error "boom"
      generate_comments_summary := fun _ _ => Except.error "boom"
      compress_content := fun _ _ _ => Except.error "boom"
      evaluate_standards := fun _ _ _ => Except.error "boom" }
    { fetch_video_metadata := fun v => Except.ok ⟨v, "t", "a", "c", "d", "u"⟩
      fetch_transcript := fun _ => Except.error "boom"
      fetch_comments := fun _ _ _ => Except.error "boom"
      generate_transcript_summary := fun _ _ _ => Except.error "boom"
      generate_comments_summary := fun _ _ => Except.error "boom"
      compress_content := fun _ _ _ => Except.error "boom"
      evaluate_standards := fun _ _ _ => Except.error "boom" }
    { video_metadata := ⟨"v", "t", "a", "c", "d", "u"⟩
      comments_summary := some "csum"
      config := { enable_synthesis := false } } rfl
  exact ⟨ctx2, h1, h5 "csum" rfl (by decide)⟩

/-- Witness for the transcript-disabled result shape on a concrete run. -/
theorem analyze_video_transcript_disabled_witness :
    (analyze_video
        { fetch_video_metadata := fun v => Except.ok ⟨v, "t", "a", "c", "d", "u"⟩
          fetch_transcript := fun _ => Except.error "boom"
          fetch_comments := fun _ _ _ => Except.error "boom"
          generate_transcript_summary := fun _ _ _ => Except.error "boom"
          generate_comments_summary := fun _ _ => Except.error "boom"
          compress_content := fun _ _ _ => Except.ok "s"
          evaluate_standards := fun _ _ _ => Except.ok [] }
        "/AAAAAAAAAAA"
        (some { enable_transcript := false
                enable_comments := false
                enable_transcript_processing := false
                enable_comments_processing := false
                enable_synthesis := false
                enable_evaluation := false })
        (some "i") = Except.ok
          { video_metadata := ⟨"AAAAAAAAAAA", "t", "a", "c", "d", "u"⟩
            transcript := none
            comments := emptyCommentsData
            processing_steps := []
            compressed_summary := some "Analysis completed without content synthesis."
            critical_assessment := emptyAssessment
            total_processing_time := 0 }) ∧
      (none : Option TranscriptData) = none := by
  have h := analyze_video_transcript_disabled
    { fetch_video_metadata := fun v => Except.ok ⟨v, "t", "a", "c", "d", "u"⟩
      fetch_transcript := fun _ => Except.error "boom"
      fetch_comments := fun _ _ _ => Except.error "boom"
      generate_transcript_summary := fun _ _ _ => Except.error "boom"
      generate_comments_summary := fun _ _ => Except.error "boom"
      compress_content := fun _ _ _ => Except.ok "s"
      evaluate_standards := fun _ _ _ => Except.ok [] }
    "/AAAAAAAAAAA" "i"
    { enable_transcript := false
      enable_comments := false
      enable_transcript_processing := false
      enable_comments_processing := false
      enable_synthesis := false
      enable_evaluation := false }
    { video_metadata := ⟨"AAAAAAAAAAA", "t", "a", "c", "d", "u"⟩
      transcript := none
      comments := emptyCommentsData
      processing_steps := []
      compressed_summary := some "Analysis completed without content synthesis."
      critical_assessment := emptyAssessment
      total_processing_time := 0 }
    rfl rfl
  exact ⟨rfl, h.1⟩
